import Mathlib

/-!
# Verification development for the zitadel command/query core

Shallow embedding of

* `internal/api/grpc/user/query.go` (bounded recursive query builder),
* `internal/api/oidc/client_credentials.go` (client-credentials authenticator),
* `internal/query/oidc_client.go` (`GetOIDCClientByID`),
* `internal/command/command.go` (`pushAppendAndReduce`, `queryAndReduce`, `exists`).

Go values are modelled as follows.

* A Go `error` is a value of `GoError`; `GoError.nil` is the `nil` error.
* A Go result pair `(v, err)` is a Lean pair; an interface or pointer that may be
  `nil` is an `Option`.
* A run that hits a nil-pointer dereference is `Go.panic`; a run that returns is
  `Go.ret`.
* An object behind an interface is a state value together with its methods as
  functions on states; a run returns the state afterwards and the log of method calls.
* The `uint8` nesting level is a `Nat` and the increment is `(level + 1) % 256`.
-/

namespace Zitadel

/-! ## Errors (`internal/errors`, `database/sql`, `zitadel/oidc`) -/

/-- Modelled from the spec: the error taxonomy of the error handling design, as far as
the embedded code throws or tests it (`internal/errors` is not among the embedded
files). -/
inductive Kind
  | Internal
  | InvalidArgument
  | NotFound
  | PreconditionFailed
  deriving DecidableEq, Repr

/-- Modelled from the spec: a Go `error` value; every error of the taxonomy carries its
kind, the original cause, a stable code and a localization key (`internal/errors` is
not among the embedded files).  `sentinel` is a package level `errors.New` value such
as `sql.ErrNoRows`; `caos` is a `CaosError` of the given kind with its parent, ID and
message; `oidc` is an `oidc.Error` with its error type, parent and description. -/
inductive GoError
  | nil
  | sentinel (name : String)
  | caos (kind : Kind) (parent : GoError) (id : String) (message : String)
  | oidc (errorType : String) (parent : GoError) (description : String)
  deriving DecidableEq, Repr

namespace GoError

/-- The kind of a `CaosError`, if the error is one. -/
def kind? : GoError → Option Kind
  | caos k _ _ _ => some k
  | _ => none

/-- The `Unwrap` method: the parent of a `CaosError` or `oidc.Error`. -/
def Unwrap : GoError → GoError
  | caos _ p _ _ => p
  | oidc _ p _ => p
  | _ => nil

end GoError

/-- Modelled from the spec: `errors.ThrowInvalidArgument(parent, id, message)` builds the
`InvalidArgument` error with that cause, code and localization key. -/
def ThrowInvalidArgument (parent : GoError) (id message : String) : GoError :=
  .caos .InvalidArgument parent id message

/-- Modelled from the spec: `errors.ThrowPreconditionFailed(parent, id, message)` builds
the `PreconditionFailed` error with that cause, code and localization key. -/
def ThrowPreconditionFailed (parent : GoError) (id message : String) : GoError :=
  .caos .PreconditionFailed parent id message

/-- Modelled from the spec: `errors.ThrowNotFound(parent, id, message)` builds the
`NotFound` error with that cause, code and localization key. -/
def ThrowNotFound (parent : GoError) (id message : String) : GoError :=
  .caos .NotFound parent id message

/-- Modelled from the spec: `errors.ThrowInternal(parent, id, message)` builds the
`Internal` error with that cause, code and localization key. -/
def ThrowInternal (parent : GoError) (id message : String) : GoError :=
  .caos .Internal parent id message

/-- Modelled from the spec: `errors.IsNotFound(err)` tells whether the error is a
`NotFound` error; it is a type assertion on the error itself. -/
def IsNotFound : GoError → Bool
  | .caos .NotFound _ _ _ => true
  | _ => false

/-- The outcome of running a Go function: it returns a value or panics on a nil
pointer dereference. -/
inductive Go (α : Type)
  | ret (v : α)
  | panic
  deriving DecidableEq, Repr

/-! ## The protobuf search query (`pkg/grpc/user`) -/

/-- Message `user.UserNameQuery`. -/
structure UserNameQuery where
  UserName : String
  Method : Int
  deriving DecidableEq, Repr

/-- Message `user.FirstNameQuery`. -/
structure FirstNameQuery where
  FirstName : String
  Method : Int
  deriving DecidableEq, Repr

/-- Message `user.LastNameQuery`. -/
structure LastNameQuery where
  LastName : String
  Method : Int
  deriving DecidableEq, Repr

/-- Message `user.NickNameQuery`. -/
structure NickNameQuery where
  NickName : String
  Method : Int
  deriving DecidableEq, Repr

/-- Message `user.DisplayNameQuery`. -/
structure DisplayNameQuery where
  DisplayName : String
  Method : Int
  deriving DecidableEq, Repr

/-- Message `user.EmailQuery`. -/
structure EmailQuery where
  EmailAddress : String
  Method : Int
  deriving DecidableEq, Repr

/-- Message `user.StateQuery`. -/
structure StateQuery where
  State : Int
  deriving DecidableEq, Repr

/-- Message `user.TypeQuery`. -/
structure TypeQuery where
  Type_ : Int
  deriving DecidableEq, Repr

/-- Message `user.LoginNameQuery`. -/
structure LoginNameQuery where
  LoginName : String
  Method : Int
  deriving DecidableEq, Repr

/-- Message `user.ResourceOwnerQuery`. -/
structure ResourceOwnerQuery where
  OrgID : String
  deriving DecidableEq, Repr

/-- Message `user.InUserIDQuery`. -/
structure InUserIDQuery where
  UserIds : List String
  deriving DecidableEq, Repr

mutual
/-- A `*user_pb.SearchQuery`.  `nilPtr` is the nil pointer, `unset` a message whose
oneof field `Query` is nil, `other` a oneof wrapper that the type switch of
`UserQueryToQuery` has no case for.  Every other constructor is one oneof wrapper;
its argument is the wrapper's payload pointer, `none` (or the `nilPtr` of the
payload type) when the payload message is absent. -/
inductive SearchQuery
  | nilPtr
  | unset
  | other (tag : Nat)
  | UserNameQuery (q : Option UserNameQuery)
  | FirstNameQuery (q : Option FirstNameQuery)
  | LastNameQuery (q : Option LastNameQuery)
  | NickNameQuery (q : Option NickNameQuery)
  | DisplayNameQuery (q : Option DisplayNameQuery)
  | EmailQuery (q : Option EmailQuery)
  | StateQuery (q : Option StateQuery)
  | TypeQuery (q : Option TypeQuery)
  | LoginNameQuery (q : Option LoginNameQuery)
  | ResourceOwner (q : Option ResourceOwnerQuery)
  | InUserIdsQuery (q : Option InUserIDQuery)
  | OrQuery (q : OrQuery)
  | AndQuery (q : AndQuery)
  | NotQuery (q : NotQuery)
/-- A `[]*user_pb.SearchQuery`. -/
inductive SearchQueries
  | nil
  | cons (query : SearchQuery) (rest : SearchQueries)
/-- A `*user_pb.OrQuery`. -/
inductive OrQuery
  | nilPtr
  | mk (Queries : SearchQueries)
/-- A `*user_pb.AndQuery`. -/
inductive AndQuery
  | nilPtr
  | mk (Queries : SearchQueries)
/-- A `*user_pb.NotQuery`. -/
inductive NotQuery
  | nilPtr
  | mk (Query : SearchQuery)
end

/-! ## The internal query package (`internal/query`, `internal/api/grpc/object`)

The constructors of the internal predicates are not part of the embedded files; the
builder is parametric in them.  `SQ` is the type of non-nil `query.SearchQuery`
values, so a returned interface value is an `Option SQ`. -/

/-- The functions of `internal/query` and `internal/api/grpc/object` that the builder
calls. -/
structure QueryPkg (SQ : Type) where
  TextMethodToQuery : Int → Int
  TextEquals : Int
  NewUserUsernameSearchQuery : String → Int → Option SQ × GoError
  NewUserFirstNameSearchQuery : String → Int → Option SQ × GoError
  NewUserLastNameSearchQuery : String → Int → Option SQ × GoError
  NewUserNickNameSearchQuery : String → Int → Option SQ × GoError
  NewUserDisplayNameSearchQuery : String → Int → Option SQ × GoError
  NewUserEmailSearchQuery : String → Int → Option SQ × GoError
  NewUserStateSearchQuery : Int → Option SQ × GoError
  NewUserTypeSearchQuery : Int → Option SQ × GoError
  NewUserLoginNameExistsQuery : String → Int → Option SQ × GoError
  NewUserResourceOwnerSearchQuery : String → Int → Option SQ × GoError
  NewUserInUserIdsSearchQuery : List String → Option SQ × GoError
  NewUserOrSearchQuery : List (Option SQ) → Option SQ × GoError
  NewUserAndSearchQuery : List (Option SQ) → Option SQ × GoError
  NewUserNotSearchQuery : Option SQ → Option SQ × GoError

/-! ## The builder (`internal/api/grpc/user/query.go`) -/

/-- The recursive functions of the builder. -/
inductive Fn
  | UserQueriesToQuery
  | UserQueryToQuery
  | OrQueryToQuery
  | AndQueryToQuery
  | NotQueryToQuery
  deriving DecidableEq, Repr

/-- The function is one of the three combinator converters, which increment the level. -/
def Fn.isCombinator : Fn → Bool
  | .OrQueryToQuery => true
  | .AndQueryToQuery => true
  | .NotQueryToQuery => true
  | _ => false

/-- One entry of the call log: the function entered, its `level` argument and the
number of builder frames on the stack, this one included. -/
structure Call where
  fn : Fn
  level : Nat
  frames : Nat
  deriving DecidableEq, Repr

/-- A run of a builder function: the calls it made, in order, and its outcome. -/
structure Run (α : Type) where
  calls : List Call
  out : Go α

/-- The result pair of a function returning `(query.SearchQuery, error)`. -/
abbrev QueryResult (SQ : Type) := Option SQ × GoError

/-- The result pair of a function returning `([]query.SearchQuery, error)`. -/
abbrev QueriesResult (SQ : Type) := Option (List (Option SQ)) × GoError

/-- The error of the nesting check. -/
def errTooManyNestingLevels : GoError :=
  ThrowInvalidArgument .nil "USER-zsQ97" "Errors.User.TooManyNestingLevels"

/-- The error of the `default` branch of the type switch. -/
def errInvalidQuery : GoError :=
  ThrowInvalidArgument .nil "GRPC-vR9nC" "List.Query.Invalid"

/-- A leaf converter: dereference the payload, then call the constructor. -/
def leaf {SQ α : Type} (q : Option α) (f : α → QueryResult SQ) : Go (QueryResult SQ) :=
  match q with
  | none => .panic
  | some m => .ret (f m)

/-- Go `UserNameQueryToQuery`. -/
def UserNameQueryToQuery {SQ : Type} (P : QueryPkg SQ) (q : Option UserNameQuery) :
    Go (QueryResult SQ) :=
  leaf q fun m => P.NewUserUsernameSearchQuery m.UserName (P.TextMethodToQuery m.Method)

/-- Go `FirstNameQueryToQuery`. -/
def FirstNameQueryToQuery {SQ : Type} (P : QueryPkg SQ) (q : Option FirstNameQuery) :
    Go (QueryResult SQ) :=
  leaf q fun m => P.NewUserFirstNameSearchQuery m.FirstName (P.TextMethodToQuery m.Method)

/-- Go `LastNameQueryToQuery`. -/
def LastNameQueryToQuery {SQ : Type} (P : QueryPkg SQ) (q : Option LastNameQuery) :
    Go (QueryResult SQ) :=
  leaf q fun m => P.NewUserLastNameSearchQuery m.LastName (P.TextMethodToQuery m.Method)

/-- Go `NickNameQueryToQuery`. -/
def NickNameQueryToQuery {SQ : Type} (P : QueryPkg SQ) (q : Option NickNameQuery) :
    Go (QueryResult SQ) :=
  leaf q fun m => P.NewUserNickNameSearchQuery m.NickName (P.TextMethodToQuery m.Method)

/-- Go `DisplayNameQueryToQuery`. -/
def DisplayNameQueryToQuery {SQ : Type} (P : QueryPkg SQ) (q : Option DisplayNameQuery) :
    Go (QueryResult SQ) :=
  leaf q fun m => P.NewUserDisplayNameSearchQuery m.DisplayName (P.TextMethodToQuery m.Method)

/-- Go `EmailQueryToQuery`. -/
def EmailQueryToQuery {SQ : Type} (P : QueryPkg SQ) (q : Option EmailQuery) :
    Go (QueryResult SQ) :=
  leaf q fun m => P.NewUserEmailSearchQuery m.EmailAddress (P.TextMethodToQuery m.Method)

/-- Go `StateQueryToQuery`. -/
def StateQueryToQuery {SQ : Type} (P : QueryPkg SQ) (q : Option StateQuery) :
    Go (QueryResult SQ) :=
  leaf q fun m => P.NewUserStateSearchQuery m.State

/-- Go `TypeQueryToQuery`. -/
def TypeQueryToQuery {SQ : Type} (P : QueryPkg SQ) (q : Option TypeQuery) :
    Go (QueryResult SQ) :=
  leaf q fun m => P.NewUserTypeSearchQuery m.Type_

/-- Go `LoginNameQueryToQuery`. -/
def LoginNameQueryToQuery {SQ : Type} (P : QueryPkg SQ) (q : Option LoginNameQuery) :
    Go (QueryResult SQ) :=
  leaf q fun m => P.NewUserLoginNameExistsQuery m.LoginName (P.TextMethodToQuery m.Method)

/-- Go `ResourceOwnerQueryToQuery`. -/
def ResourceOwnerQueryToQuery {SQ : Type} (P : QueryPkg SQ) (q : Option ResourceOwnerQuery) :
    Go (QueryResult SQ) :=
  leaf q fun m => P.NewUserResourceOwnerSearchQuery m.OrgID P.TextEquals

/-- Go `InUserIdsQueryToQuery`. -/
def InUserIdsQueryToQuery {SQ : Type} (P : QueryPkg SQ) (q : Option InUserIDQuery) :
    Go (QueryResult SQ) :=
  leaf q fun m => P.NewUserInUserIdsSearchQuery m.UserIds

/-- Entering a function: its call is logged before the calls made by its body. -/
def enter {α : Type} (c : Call) (r : Run α) : Run α :=
  ⟨c :: r.calls, r.out⟩

/-- The tail of `OrQueryToQuery` and `AndQueryToQuery`: `if err != nil { return nil, err }`,
then the combinator constructor on the mapped queries. -/
def thenConstruct {SQ : Type} (r : Run (QueriesResult SQ))
    (f : List (Option SQ) → QueryResult SQ) : Run (QueryResult SQ) :=
  match r.out with
  | .panic => ⟨r.calls, .panic⟩
  | .ret (v, err) =>
    if err ≠ .nil then ⟨r.calls, .ret (none, err)⟩
    else ⟨r.calls, .ret (f (v.getD []))⟩

mutual
/-- Go `UserQueryToQuery(query, level)`, entered as builder frame number `frames`. -/
def UserQueryToQuery {SQ : Type} (P : QueryPkg SQ) (query : SearchQuery) (level frames : Nat) :
    Run (QueryResult SQ) :=
  let c : Call := ⟨.UserQueryToQuery, level, frames⟩
  if 20 < level then
    ⟨[c], .ret (none, errTooManyNestingLevels)⟩
  else
    match query with
    | .nilPtr => ⟨[c], .panic⟩
    | .UserNameQuery q => ⟨[c], UserNameQueryToQuery P q⟩
    | .FirstNameQuery q => ⟨[c], FirstNameQueryToQuery P q⟩
    | .LastNameQuery q => ⟨[c], LastNameQueryToQuery P q⟩
    | .NickNameQuery q => ⟨[c], NickNameQueryToQuery P q⟩
    | .DisplayNameQuery q => ⟨[c], DisplayNameQueryToQuery P q⟩
    | .EmailQuery q => ⟨[c], EmailQueryToQuery P q⟩
    | .StateQuery q => ⟨[c], StateQueryToQuery P q⟩
    | .TypeQuery q => ⟨[c], TypeQueryToQuery P q⟩
    | .LoginNameQuery q => ⟨[c], LoginNameQueryToQuery P q⟩
    | .ResourceOwner q => ⟨[c], ResourceOwnerQueryToQuery P q⟩
    | .InUserIdsQuery q => ⟨[c], InUserIdsQueryToQuery P q⟩
    | .OrQuery q => enter c (OrQueryToQuery P q level (frames + 1))
    | .AndQuery q => enter c (AndQueryToQuery P q level (frames + 1))
    | .NotQuery q => enter c (NotQueryToQuery P q level (frames + 1))
    | .unset => ⟨[c], .ret (none, errInvalidQuery)⟩
    | .other _ => ⟨[c], .ret (none, errInvalidQuery)⟩
/-- The `for` loop of `UserQueriesToQuery` over the elements not yet converted, run
inside the frame `frames` of `UserQueriesToQuery`: the first element whose conversion
returns a non-nil error ends the loop with `nil, err`; otherwise the converted element
is stored and the loop goes on. -/
def UserQueriesToQuery.loop {SQ : Type} (P : QueryPkg SQ) (queries : SearchQueries)
    (level frames : Nat) : Run (QueriesResult SQ) :=
  match queries with
  | .nil => ⟨[], .ret (some [], .nil)⟩
  | .cons query rest =>
    let r := UserQueryToQuery P query level (frames + 1)
    match r.out with
    | .panic => ⟨r.calls, .panic⟩
    | .ret (v, err) =>
      if err ≠ .nil then ⟨r.calls, .ret (none, err)⟩
      else
        let rs := UserQueriesToQuery.loop P rest level frames
        match rs.out with
        | .panic => ⟨r.calls ++ rs.calls, .panic⟩
        | .ret (none, e) => ⟨r.calls ++ rs.calls, .ret (none, e)⟩
        | .ret (some vs, e) => ⟨r.calls ++ rs.calls, .ret (some (v :: vs), e)⟩
/-- Go `OrQueryToQuery(q, level)`; the call of `UserQueriesToQuery(q.Queries, level+1)` is
its log entry followed by the loop. -/
def OrQueryToQuery {SQ : Type} (P : QueryPkg SQ) (q : OrQuery) (level frames : Nat) :
    Run (QueryResult SQ) :=
  let c : Call := ⟨.OrQueryToQuery, level, frames⟩
  match q with
  | .nilPtr => ⟨[c], .panic⟩
  | .mk queries =>
    enter c (thenConstruct
      (enter ⟨.UserQueriesToQuery, (level + 1) % 256, frames + 1⟩
        (UserQueriesToQuery.loop P queries ((level + 1) % 256) (frames + 1)))
      P.NewUserOrSearchQuery)
/-- Go `AndQueryToQuery(q, level)`; the call of `UserQueriesToQuery(q.Queries, level+1)` is
its log entry followed by the loop. -/
def AndQueryToQuery {SQ : Type} (P : QueryPkg SQ) (q : AndQuery) (level frames : Nat) :
    Run (QueryResult SQ) :=
  let c : Call := ⟨.AndQueryToQuery, level, frames⟩
  match q with
  | .nilPtr => ⟨[c], .panic⟩
  | .mk queries =>
    enter c (thenConstruct
      (enter ⟨.UserQueriesToQuery, (level + 1) % 256, frames + 1⟩
        (UserQueriesToQuery.loop P queries ((level + 1) % 256) (frames + 1)))
      P.NewUserAndSearchQuery)
/-- Go `NotQueryToQuery(q, level)`. -/
def NotQueryToQuery {SQ : Type} (P : QueryPkg SQ) (q : NotQuery) (level frames : Nat) :
    Run (QueryResult SQ) :=
  let c : Call := ⟨.NotQueryToQuery, level, frames⟩
  match q with
  | .nilPtr => ⟨[c], .panic⟩
  | .mk query =>
    let r := UserQueryToQuery P query ((level + 1) % 256) (frames + 1)
    match r.out with
    | .panic => ⟨c :: r.calls, .panic⟩
    | .ret (v, err) =>
      if err ≠ .nil then ⟨c :: r.calls, .ret (none, err)⟩
      else ⟨c :: r.calls, .ret (P.NewUserNotSearchQuery v)⟩
end

/-- Go `UserQueriesToQuery(queries, level)`, entered as builder frame number `frames`:
allocate the result slice and run the loop. -/
def UserQueriesToQuery {SQ : Type} (P : QueryPkg SQ) (queries : SearchQueries)
    (level frames : Nat) : Run (QueriesResult SQ) :=
  enter ⟨.UserQueriesToQuery, level, frames⟩ (UserQueriesToQuery.loop P queries level frames)

/-- The build of a whole tree: `UserQueryToQuery(tree, 0)` as the first builder frame. -/
def Build {SQ : Type} (P : QueryPkg SQ) (tree : SearchQuery) : Run (QueryResult SQ) :=
  UserQueryToQuery P tree 0 1

/-! ## Shape of a search query -/

mutual
/-- Nesting depth of a query: the largest number of combinator levels between the
query and a node below it. -/
def SearchQuery.depth : SearchQuery → Nat
  | .OrQuery q => q.depth
  | .AndQuery q => q.depth
  | .NotQuery q => q.depth
  | _ => 0
/-- Levels below the combinator that holds these children: `0` for no child. -/
def SearchQueries.depth : SearchQueries → Nat
  | .nil => 0
  | .cons query rest => max (query.depth + 1) rest.depth
/-- Nesting depth of an OR node. -/
def OrQuery.depth : OrQuery → Nat
  | .nilPtr => 0
  | .mk queries => queries.depth
/-- Nesting depth of an AND node. -/
def AndQuery.depth : AndQuery → Nat
  | .nilPtr => 0
  | .mk queries => queries.depth
/-- Nesting depth of a NOT node. -/
def NotQuery.depth : NotQuery → Nat
  | .nilPtr => 0
  | .mk query => query.depth + 1
end

mutual
/-- No pointer that the builder dereferences is nil: the query, every child and every
payload message is present. -/
def SearchQuery.present : SearchQuery → Bool
  | .nilPtr => false
  | .unset => true
  | .other _ => true
  | .UserNameQuery q => q.isSome
  | .FirstNameQuery q => q.isSome
  | .LastNameQuery q => q.isSome
  | .NickNameQuery q => q.isSome
  | .DisplayNameQuery q => q.isSome
  | .EmailQuery q => q.isSome
  | .StateQuery q => q.isSome
  | .TypeQuery q => q.isSome
  | .LoginNameQuery q => q.isSome
  | .ResourceOwner q => q.isSome
  | .InUserIdsQuery q => q.isSome
  | .OrQuery q => q.present
  | .AndQuery q => q.present
  | .NotQuery q => q.present
/-- Every element is present. -/
def SearchQueries.present : SearchQueries → Bool
  | .nil => true
  | .cons query rest => query.present && rest.present
/-- The OR message and all its children are present. -/
def OrQuery.present : OrQuery → Bool
  | .nilPtr => false
  | .mk queries => queries.present
/-- The AND message and all its children are present. -/
def AndQuery.present : AndQuery → Bool
  | .nilPtr => false
  | .mk queries => queries.present
/-- The NOT message and its inner query are present. -/
def NotQuery.present : NotQuery → Bool
  | .nilPtr => false
  | .mk query => query.present
end

mutual
/-- Every node is of one of the fourteen kinds the type switch has a case for. -/
def SearchQuery.recognised : SearchQuery → Bool
  | .nilPtr => false
  | .unset => false
  | .other _ => false
  | .OrQuery q => q.recognised
  | .AndQuery q => q.recognised
  | .NotQuery q => q.recognised
  | _ => true
/-- Every element is recognised. -/
def SearchQueries.recognised : SearchQueries → Bool
  | .nil => true
  | .cons query rest => query.recognised && rest.recognised
/-- Every node below the OR node is recognised. -/
def OrQuery.recognised : OrQuery → Bool
  | .nilPtr => true
  | .mk queries => queries.recognised
/-- Every node below the AND node is recognised. -/
def AndQuery.recognised : AndQuery → Bool
  | .nilPtr => true
  | .mk queries => queries.recognised
/-- Every node below the NOT node is recognised. -/
def NotQuery.recognised : NotQuery → Bool
  | .nilPtr => true
  | .mk query => query.recognised
end

/-- The query is of none of the fourteen kinds the type switch has a case for: its
oneof field is not set, or set to a wrapper without a case. -/
def SearchQuery.unrecognisedKind : SearchQuery → Bool
  | .unset => true
  | .other _ => true
  | _ => false

/-- The errors that a constructor of the query package returns on some input. -/
inductive QueryPkg.Returns {SQ : Type} (P : QueryPkg SQ) : GoError → Prop
  | username (s : String) (m : Int) : P.Returns (P.NewUserUsernameSearchQuery s m).2
  | firstName (s : String) (m : Int) : P.Returns (P.NewUserFirstNameSearchQuery s m).2
  | lastName (s : String) (m : Int) : P.Returns (P.NewUserLastNameSearchQuery s m).2
  | nickName (s : String) (m : Int) : P.Returns (P.NewUserNickNameSearchQuery s m).2
  | displayName (s : String) (m : Int) : P.Returns (P.NewUserDisplayNameSearchQuery s m).2
  | email (s : String) (m : Int) : P.Returns (P.NewUserEmailSearchQuery s m).2
  | state (n : Int) : P.Returns (P.NewUserStateSearchQuery n).2
  | type (n : Int) : P.Returns (P.NewUserTypeSearchQuery n).2
  | loginName (s : String) (m : Int) : P.Returns (P.NewUserLoginNameExistsQuery s m).2
  | resourceOwner (s : String) (m : Int) : P.Returns (P.NewUserResourceOwnerSearchQuery s m).2
  | inUserIds (l : List String) : P.Returns (P.NewUserInUserIdsSearchQuery l).2
  | or (l : List (Option SQ)) : P.Returns (P.NewUserOrSearchQuery l).2
  | and (l : List (Option SQ)) : P.Returns (P.NewUserAndSearchQuery l).2
  | not (v : Option SQ) : P.Returns (P.NewUserNotSearchQuery v).2

/-- The converter result carries a nil error (a panicking converter calls no constructor). -/
def errNil {SQ : Type} : Go (QueryResult SQ) → Bool
  | .ret (_, e) => decide (e = .nil)
  | .panic => true

mutual
/-- The constructor call of every leaf of the query returns a nil error. -/
def SearchQuery.leavesSucceed {SQ : Type} (P : QueryPkg SQ) : SearchQuery → Bool
  | .nilPtr => true
  | .unset => true
  | .other _ => true
  | .UserNameQuery q => errNil (UserNameQueryToQuery P q)
  | .FirstNameQuery q => errNil (FirstNameQueryToQuery P q)
  | .LastNameQuery q => errNil (LastNameQueryToQuery P q)
  | .NickNameQuery q => errNil (NickNameQueryToQuery P q)
  | .DisplayNameQuery q => errNil (DisplayNameQueryToQuery P q)
  | .EmailQuery q => errNil (EmailQueryToQuery P q)
  | .StateQuery q => errNil (StateQueryToQuery P q)
  | .TypeQuery q => errNil (TypeQueryToQuery P q)
  | .LoginNameQuery q => errNil (LoginNameQueryToQuery P q)
  | .ResourceOwner q => errNil (ResourceOwnerQueryToQuery P q)
  | .InUserIdsQuery q => errNil (InUserIdsQueryToQuery P q)
  | .OrQuery q => q.leavesSucceed P
  | .AndQuery q => q.leavesSucceed P
  | .NotQuery q => q.leavesSucceed P
/-- The leaves of every element succeed. -/
def SearchQueries.leavesSucceed {SQ : Type} (P : QueryPkg SQ) : SearchQueries → Bool
  | .nil => true
  | .cons query rest => query.leavesSucceed P && rest.leavesSucceed P
/-- The leaves below the OR node succeed. -/
def OrQuery.leavesSucceed {SQ : Type} (P : QueryPkg SQ) : OrQuery → Bool
  | .nilPtr => true
  | .mk queries => queries.leavesSucceed P
/-- The leaves below the AND node succeed. -/
def AndQuery.leavesSucceed {SQ : Type} (P : QueryPkg SQ) : AndQuery → Bool
  | .nilPtr => true
  | .mk queries => queries.leavesSucceed P
/-- The leaves below the NOT node succeed. -/
def NotQuery.leavesSucceed {SQ : Type} (P : QueryPkg SQ) : NotQuery → Bool
  | .nilPtr => true
  | .mk query => query.leavesSucceed P
end

/-- The three combinator constructors return a nil error on every input. -/
def QueryPkg.CombinatorsSucceed {SQ : Type} (P : QueryPkg SQ) : Prop :=
  (∀ l, (P.NewUserOrSearchQuery l).2 = .nil) ∧
  (∀ l, (P.NewUserAndSearchQuery l).2 = .nil) ∧
  ∀ v, (P.NewUserNotSearchQuery v).2 = .nil

/-- Bound on one logged call of a run entered at `level`: its level is at most 21, its
frame number stays within `budget`, and a `UserQueryToQuery` call is at most at level
`reach`. -/
def Call.Bounded (c : Call) (level budget reach : Nat) : Prop :=
  c.level ≤ 21 ∧ c.frames + 3 * level ≤ budget ∧ (c.fn = .UserQueryToQuery → c.level ≤ reach)

/-- The errors the builder can return at `level` for a query of depth `depth`: the
nesting error (only when a node lies beyond level 20), the error of the `default`
branch, or an error returned by a constructor. -/
def QueryPkg.BuildError {SQ : Type} (P : QueryPkg SQ) (reach : Nat) (e : GoError) : Prop :=
  (e = errTooManyNestingLevels ∧ 20 < reach) ∨ e = errInvalidQuery ∨ P.Returns e

/-- The outcome of a run that fails: no value and a non-nil error. -/
def Fails {α : Type} (out : Go (Option α × GoError)) : Prop :=
  ∃ e, e ≠ GoError.nil ∧ out = .ret (none, e)

mutual
/-- The build of `query` at `level` makes a constructor call for one of the nodes of
`query`, and that call returns the error `e`.  A leaf calls its constructor on its
payload; a combinator calls its constructor on its converted children, once all of
them are converted without error; nothing is called beyond level 20, nor for the
elements after the first one that fails. -/
def SearchQuery.ctorError {SQ : Type} (P : QueryPkg SQ) : SearchQuery → Nat → GoError → Prop
  | .nilPtr, _, _ => False
  | .unset, _, _ => False
  | .other _, _, _ => False
  | .UserNameQuery q, level, e => level ≤ 20 ∧ ∃ v, UserNameQueryToQuery P q = .ret (v, e)
  | .FirstNameQuery q, level, e => level ≤ 20 ∧ ∃ v, FirstNameQueryToQuery P q = .ret (v, e)
  | .LastNameQuery q, level, e => level ≤ 20 ∧ ∃ v, LastNameQueryToQuery P q = .ret (v, e)
  | .NickNameQuery q, level, e => level ≤ 20 ∧ ∃ v, NickNameQueryToQuery P q = .ret (v, e)
  | .DisplayNameQuery q, level, e =>
    level ≤ 20 ∧ ∃ v, DisplayNameQueryToQuery P q = .ret (v, e)
  | .EmailQuery q, level, e => level ≤ 20 ∧ ∃ v, EmailQueryToQuery P q = .ret (v, e)
  | .StateQuery q, level, e => level ≤ 20 ∧ ∃ v, StateQueryToQuery P q = .ret (v, e)
  | .TypeQuery q, level, e => level ≤ 20 ∧ ∃ v, TypeQueryToQuery P q = .ret (v, e)
  | .LoginNameQuery q, level, e => level ≤ 20 ∧ ∃ v, LoginNameQueryToQuery P q = .ret (v, e)
  | .ResourceOwner q, level, e =>
    level ≤ 20 ∧ ∃ v, ResourceOwnerQueryToQuery P q = .ret (v, e)
  | .InUserIdsQuery q, level, e => level ≤ 20 ∧ ∃ v, InUserIdsQueryToQuery P q = .ret (v, e)
  | .OrQuery q, level, e => level ≤ 20 ∧ q.ctorError P level e
  | .AndQuery q, level, e => level ≤ 20 ∧ q.ctorError P level e
  | .NotQuery q, level, e => level ≤ 20 ∧ q.ctorError P level e
/-- The loop over the elements at `level` makes a constructor call that returns `e`:
for the first element, or for a later one when the first is converted without error. -/
def SearchQueries.ctorError {SQ : Type} (P : QueryPkg SQ) :
    SearchQueries → Nat → GoError → Prop
  | .nil, _, _ => False
  | .cons query rest, level, e =>
    query.ctorError P level e ∨
      ((∃ v frames, (UserQueryToQuery P query level frames).out = .ret (v, .nil)) ∧
        rest.ctorError P level e)
/-- The converter of an OR node entered at `level` makes a constructor call that
returns `e`: for a node below it, or the OR constructor on the converted children. -/
def OrQuery.ctorError {SQ : Type} (P : QueryPkg SQ) : OrQuery → Nat → GoError → Prop
  | .nilPtr, _, _ => False
  | .mk queries, level, e =>
    queries.ctorError P ((level + 1) % 256) e ∨
      ∃ vs frames,
        (UserQueriesToQuery.loop P queries ((level + 1) % 256) frames).out =
          .ret (some vs, .nil) ∧
        (P.NewUserOrSearchQuery vs).2 = e
/-- The converter of an AND node entered at `level` makes a constructor call that
returns `e`: for a node below it, or the AND constructor on the converted children. -/
def AndQuery.ctorError {SQ : Type} (P : QueryPkg SQ) : AndQuery → Nat → GoError → Prop
  | .nilPtr, _, _ => False
  | .mk queries, level, e =>
    queries.ctorError P ((level + 1) % 256) e ∨
      ∃ vs frames,
        (UserQueriesToQuery.loop P queries ((level + 1) % 256) frames).out =
          .ret (some vs, .nil) ∧
        (P.NewUserAndSearchQuery vs).2 = e
/-- The converter of a NOT node entered at `level` makes a constructor call that
returns `e`: for a node below it, or the NOT constructor on the converted inner query. -/
def NotQuery.ctorError {SQ : Type} (P : QueryPkg SQ) : NotQuery → Nat → GoError → Prop
  | .nilPtr, _, _ => False
  | .mk query, level, e =>
    query.ctorError P ((level + 1) % 256) e ∨
      ∃ v frames,
        (UserQueryToQuery P query ((level + 1) % 256) frames).out = .ret (v, .nil) ∧
        (P.NewUserNotSearchQuery v).2 = e
end

/-- Where a non-nil error `e` of a run comes from: the nesting check (and then a node
lies beyond level 20, `reach` being the deepest level), the `default` branch of the
type switch (and then some node is not of a recognised kind), or a constructor call
made by the run. -/
def Origin (e : GoError) (reach : Nat) (recognised : Bool) (constructor : Prop) : Prop :=
  (e = errTooManyNestingLevels ∧ 20 < reach) ∨
    (e = errInvalidQuery ∧ recognised = false) ∨ constructor

/-! ## The client-credentials authenticator (`internal/api/oidc/client_credentials.go`) -/

/-- Go `domain.OIDCTokenTypeBearer`. -/
def OIDCTokenTypeBearer : Int := 0

/-- Go `domain.OIDCTokenTypeJWT`. -/
def OIDCTokenTypeJWT : Int := 1

/-- Go `op.AccessTokenTypeBearer`. -/
def AccessTokenTypeBearer : Int := 0

/-- Go `op.AccessTokenTypeJWT`. -/
def AccessTokenTypeJWT : Int := 1

/-- Go `oidc.GrantTypeClientCredentials`. -/
def GrantTypeClientCredentials : String := "client_credentials"

/-- Go `crypto.CryptoValue`: a stored, hashed secret. -/
structure CryptoValue where
  Algorithm : String
  KeyID : String
  Crypted : List Nat
  deriving DecidableEq, Repr

/-- Go `query.Machine`: the machine sub-record of a user, with the fields the
authenticator reads. -/
structure Machine where
  Secret : Option CryptoValue
  AccessTokenType : Int
  deriving DecidableEq, Repr

/-- Go `query.User`, with the fields the authenticator reads. -/
structure User where
  ID : String
  ResourceOwner : String
  Machine : Option Machine
  deriving DecidableEq, Repr

/-- What the authenticator does to its collaborators after the lookup, in order: a
hash comparison, or one of the two secret-check events handed to the command side. -/
inductive Effect
  | CompareHash (value : CryptoValue) (comparer : String)
  | MachineSecretCheckFailed (userID resourceOwner : String)
  | MachineSecretCheckSucceeded (userID resourceOwner : String)
  deriving DecidableEq, Repr

/-- The collaborators of the `Server` that the authenticator uses:
`query.NewUserLoginNamesSearchQuery`, `s.query.GetUser(ctx, false, searchQuery)`,
`crypto.CompareHash(value, comparer, s.hashAlg)` and the package function
`accessTokenTypeToOIDC`, none of which is part of the embedded files. -/
structure Server (SQ : Type) where
  NewUserLoginNamesSearchQuery : String → Option SQ × GoError
  GetUser : Option SQ → Option User × GoError
  CompareHash : CryptoValue → String → GoError
  accessTokenTypeToOIDC : Int → Int

/-- The `clientCredentialsClient` struct. -/
structure clientCredentialsClient where
  id : String
  user : Option User
  deriving DecidableEq, Repr

/-- A run of the authenticator: its effects, in order, and its outcome. -/
structure AuthRun where
  effects : List Effect
  out : Go (Option clientCredentialsClient × GoError)

/-- Go `oidc.ErrInvalidClient()`. -/
def ErrInvalidClient : GoError := .oidc "invalid_client" .nil ""

/-- Go `(*oidc.Error).WithParent`. -/
def GoError.WithParent : GoError → GoError → GoError
  | .oidc t _ d, parent => .oidc t parent d
  | e, _ => e

/-- Go `(*oidc.Error).WithDescription`. -/
def GoError.WithDescription : GoError → String → GoError
  | .oidc t p _, desc => .oidc t p desc
  | e, _ => e

/-- Go `(*Server).clientCredentialsAuth(ctx, clientID, clientSecret)`. -/
def clientCredentialsAuth {SQ : Type} (s : Server SQ) (clientID clientSecret : String) :
    AuthRun :=
  match s.NewUserLoginNamesSearchQuery clientID with
  | (searchQuery, err) =>
    if err ≠ .nil then ⟨[], .ret (none, err)⟩
    else
      match s.GetUser searchQuery with
      | (user, err) =>
        if IsNotFound err then
          ⟨[], .ret (none, (ErrInvalidClient.WithParent err).WithDescription "client not found")⟩
        else if err ≠ .nil then ⟨[], .ret (none, err)⟩
        else
          match user with
          | none => ⟨[], .panic⟩
          | some user =>
            let notExisting : AuthRun :=
              ⟨[], .ret (none, ThrowPreconditionFailed .nil "OIDC-pieP8"
                "Errors.User.Machine.Secret.NotExisting")⟩
            match user.Machine with
            | none => notExisting
            | some machine =>
              match machine.Secret with
              | none => notExisting
              | some secret =>
                let err := s.CompareHash secret clientSecret
                if err ≠ .nil then
                  ⟨[.CompareHash secret clientSecret,
                    .MachineSecretCheckFailed user.ID user.ResourceOwner],
                    .ret (none, ThrowInvalidArgument err "OIDC-VoXo6"
                      "Errors.User.Machine.Secret.Invalid")⟩
                else
                  ⟨[.CompareHash secret clientSecret,
                    .MachineSecretCheckSucceeded user.ID user.ResourceOwner],
                    .ret (some ⟨clientID, some user⟩, .nil)⟩

namespace clientCredentialsClient

/-- Go `AccessTokenType()`: `accessTokenTypeToOIDC(c.user.Machine.AccessTokenType)`. -/
def AccessTokenType {SQ : Type} (s : Server SQ) (c : clientCredentialsClient) : Go Int :=
  match c.user with
  | none => .panic
  | some user =>
    match user.Machine with
    | none => .panic
    | some machine => .ret (s.accessTokenTypeToOIDC machine.AccessTokenType)

/-- Go `GetID()`. -/
def GetID (c : clientCredentialsClient) : String := c.id

/-- Go `GrantTypes()`. -/
def GrantTypes (_c : clientCredentialsClient) : List String := [GrantTypeClientCredentials]

/-- Go `RestrictAdditionalAccessTokenScopes()`. -/
def RestrictAdditionalAccessTokenScopes (_c : clientCredentialsClient) :
    List String → List String :=
  fun scopes => scopes

end clientCredentialsClient

/-- The secret-check events among the effects of a run. -/
def dispatched (effects : List Effect) : List Effect :=
  effects.filter fun
    | .CompareHash _ _ => false
    | _ => true

/-- The hash comparisons among the effects of a run. -/
def compared (effects : List Effect) : List Effect :=
  effects.filter fun
    | .CompareHash _ _ => true
    | _ => false

/-! ## The OIDC client lookup (`internal/query/oidc_client.go`) -/

/-- Go `sql.ErrNoRows`. -/
def ErrNoRows : GoError := .sentinel "sql: no rows in result set"

/-- Go `sql.ErrConnDone`. -/
def ErrConnDone : GoError := .sentinel "sql: connection is already closed"

/-- Go `errors.Is(err, target)` for a sentinel `target`, the only targets of the embedded
code: some error of the `Unwrap` chain of `err` is the sentinel.  (The `Is` methods of
`CaosError` and `oidc.Error` accept only targets of their own type.) -/
def errorsIs : GoError → GoError → Bool
  | .sentinel n, .sentinel t => n == t
  | .caos _ parent _ _, .sentinel t => errorsIs parent (.sentinel t)
  | .oidc _ parent _, .sentinel t => errorsIs parent (.sentinel t)
  | _, _ => false

/-- Go `query.OIDCSettings`, declared outside the embedded files; its token lifetimes. -/
structure OIDCSettings where
  AccessTokenLifetime : Int
  IdTokenLifetime : Int
  deriving DecidableEq, Repr

/-- Go `query.OIDCClient`. -/
structure OIDCClient where
  InstanceID : String
  AppID : String
  State : Int
  ClientID : String
  ClientSecret : Option CryptoValue
  RedirectURIs : List String
  ResponseTypes : List Int
  GrantTypes : List Int
  ApplicationType : Int
  AuthMethodType : Int
  PostLogoutRedirectURIs : List String
  IsDevMode : Bool
  AccessTokenType : Int
  AccessTokenRoleAssertion : Bool
  IDTokenRoleAssertion : Bool
  IDTokenUserinfoAssertion : Bool
  ClockSkew : Int
  AdditionalOrigins : List String
  PublicKeys : List (String × List Nat)
  ProjectID : String
  ProjectRoleKeys : List String
  Settings : Option OIDCSettings
  deriving DecidableEq, Repr

/-- The collaborator of `Queries` that the lookup uses:
`database.QueryJSONObject[OIDCClient](ctx, q.client, oidcClientQuery, instanceID,
clientID, getKeys)`, which is not part of the embedded files. -/
structure Queries where
  QueryJSONObject : String → String → Bool → Option OIDCClient × GoError

/-- Go `(*Queries).GetOIDCClientByID(ctx, clientID, getKeys)`; `instanceID` is
`authz.GetInstance(ctx).InstanceID()`. -/
def GetOIDCClientByID (q : Queries) (instanceID clientID : String) (getKeys : Bool) :
    Option OIDCClient × GoError :=
  match q.QueryJSONObject instanceID clientID getKeys with
  | (client, err) =>
    if errorsIs err ErrNoRows then
      (none, ThrowNotFound err "QUERY-wu6Ee" "Errors.App.NotFound")
    else if err ≠ .nil then
      (none, ThrowInternal err "QUERY-ieR7R" "Errors.Internal")
    else (client, err)

/-! ## Write models and the command side (`internal/command/command.go`) -/

/-- A method call on a write model, as logged by a run. -/
inductive MethodCall (Ev : Type)
  | Query
  | AppendEvents (events : List Ev)
  | Reduce
  | Exists
  deriving DecidableEq, Repr

/-- The interface `AppendReducer` over objects whose state has type `σ`:
`AppendEvents(...eventstore.Event)` changes the object, `Reduce() error` changes it and
returns an error. -/
structure AppendReducer (σ Ev : Type) where
  AppendEvents : σ → List Ev → σ
  Reduce : σ → σ × GoError

/-- The interface `eventstore.QueryReducer`: an `AppendReducer` with the getter
`Query()`, whose result has type `Q`. -/
structure QueryReducer (σ Q Ev : Type) extends AppendReducer σ Ev where
  Query : σ → Q

/-- The interface `existsWriteModel`: a `QueryReducer` with the getter `Exists() bool`. -/
structure existsWriteModel (σ Q Ev : Type) extends QueryReducer σ Q Ev where
  Exists : σ → Bool

/-- The part of `Commands` that the embedded functions use: `c.eventstore.Push(ctx,
cmds...)`, which returns the pushed events and an error. -/
structure Commands (Cmd Ev : Type) where
  Push : List Cmd → List Ev × GoError

/-- A run over a write model: the state of the object afterwards, the methods called
on it, in order, and the returned value. -/
structure ModelRun (σ Ev α : Type) where
  object : σ
  calls : List (MethodCall Ev)
  result : α

/-- Go `AppendAndReduce(object, events...)`. -/
def AppendAndReduce {σ Ev : Type} (I : AppendReducer σ Ev) (object : σ) (events : List Ev) :
    ModelRun σ Ev GoError :=
  let appended := I.AppendEvents object events
  let reduced := I.Reduce appended
  ⟨reduced.1, [.AppendEvents events, .Reduce], reduced.2⟩

/-- Go `(*Commands).pushAppendAndReduce(ctx, object, cmds...)`. -/
def Commands.pushAppendAndReduce {σ Cmd Ev : Type} (c : Commands Cmd Ev)
    (I : AppendReducer σ Ev) (object : σ) (cmds : List Cmd) : ModelRun σ Ev GoError :=
  match c.Push cmds with
  | (events, err) =>
    if err ≠ .nil then ⟨object, [], err⟩
    else AppendAndReduce I object events

/-- Go `queryAndReduce(ctx, filter, wm)`; `filter` is the
`preparation.FilterToQueryReducer`. -/
def queryAndReduce {σ Q Ev : Type} (filter : Q → List Ev × GoError)
    (W : QueryReducer σ Q Ev) (wm : σ) : ModelRun σ Ev GoError :=
  match filter (W.Query wm) with
  | (events, err) =>
    if err ≠ .nil then ⟨wm, [.Query], err⟩
    else if events.length = 0 then ⟨wm, [.Query], .nil⟩
    else
      let appended := W.AppendEvents wm events
      let reduced := W.Reduce appended
      ⟨reduced.1, [.Query, .AppendEvents events, .Reduce], reduced.2⟩

/-- Go `exists(ctx, filter, wm)`. -/
def existsCheck {σ Q Ev : Type} (filter : Q → List Ev × GoError)
    (W : existsWriteModel σ Q Ev) (wm : σ) : ModelRun σ Ev (Bool × GoError) :=
  let r := queryAndReduce filter W.toQueryReducer wm
  if r.result ≠ .nil then ⟨r.object, r.calls, (false, r.result)⟩
  else ⟨r.object, r.calls ++ [.Exists], (W.Exists r.object, .nil)⟩

/-! ## Sample collaborators and inputs -/

/-- A query package for the examples.  Text, state and type constructors succeed; the
list constructor rejects an empty list and the combinators reject an empty list or a
nil query with a plain error, as constructors with an `error` result may. -/
def samplePkg : QueryPkg String where
  TextMethodToQuery := fun m => m
  TextEquals := 0
  NewUserUsernameSearchQuery := fun s _ => (some ("username:" ++ s), .nil)
  NewUserFirstNameSearchQuery := fun s _ => (some ("firstname:" ++ s), .nil)
  NewUserLastNameSearchQuery := fun s _ => (some ("lastname:" ++ s), .nil)
  NewUserNickNameSearchQuery := fun s _ => (some ("nickname:" ++ s), .nil)
  NewUserDisplayNameSearchQuery := fun s _ => (some ("displayname:" ++ s), .nil)
  NewUserEmailSearchQuery := fun s _ => (some ("email:" ++ s), .nil)
  NewUserStateSearchQuery := fun _ => (some "state", .nil)
  NewUserTypeSearchQuery := fun _ => (some "type", .nil)
  NewUserLoginNameExistsQuery := fun s _ => (some ("loginname:" ++ s), .nil)
  NewUserResourceOwnerSearchQuery := fun s _ => (some ("owner:" ++ s), .nil)
  NewUserInUserIdsSearchQuery := fun l =>
    if l.isEmpty then (none, .sentinel "empty values") else (some "ids", .nil)
  NewUserOrSearchQuery := fun l =>
    if l.isEmpty then (none, .sentinel "missing column") else (some "or", .nil)
  NewUserAndSearchQuery := fun l =>
    if l.isEmpty then (none, .sentinel "missing column") else (some "and", .nil)
  NewUserNotSearchQuery := fun v =>
    if v.isNone then (none, .sentinel "missing column") else (some "not", .nil)

/-- A query package whose constructors all succeed. -/
def totalPkg : QueryPkg String where
  TextMethodToQuery := fun m => m
  TextEquals := 0
  NewUserUsernameSearchQuery := fun s _ => (some s, .nil)
  NewUserFirstNameSearchQuery := fun s _ => (some s, .nil)
  NewUserLastNameSearchQuery := fun s _ => (some s, .nil)
  NewUserNickNameSearchQuery := fun s _ => (some s, .nil)
  NewUserDisplayNameSearchQuery := fun s _ => (some s, .nil)
  NewUserEmailSearchQuery := fun s _ => (some s, .nil)
  NewUserStateSearchQuery := fun _ => (some "state", .nil)
  NewUserTypeSearchQuery := fun _ => (some "type", .nil)
  NewUserLoginNameExistsQuery := fun s _ => (some s, .nil)
  NewUserResourceOwnerSearchQuery := fun s _ => (some s, .nil)
  NewUserInUserIdsSearchQuery := fun _ => (some "ids", .nil)
  NewUserOrSearchQuery := fun _ => (some "or", .nil)
  NewUserAndSearchQuery := fun _ => (some "and", .nil)
  NewUserNotSearchQuery := fun _ => (some "not", .nil)

/-- The leaf `user_name_query { user_name: "a" }`. -/
def leafA : SearchQuery := .UserNameQuery (some ⟨"a", 0⟩)

/-- The query `q` wrapped in `n` NOT nodes. -/
def notChain : Nat → SearchQuery → SearchQuery
  | 0, q => q
  | n + 1, q => .NotQuery (.mk (notChain n q))

/-- The query `q` wrapped in `n` OR nodes of one child each. -/
def orChain : Nat → SearchQuery → SearchQuery
  | 0, q => q
  | n + 1, q => .OrQuery (.mk (.cons (orChain n q) .nil))

/-- An OR node whose first child is an id-list leaf with no ids and whose second child
is a leaf below 21 NOT nodes. -/
def emptyIdsThenDeep : SearchQuery :=
  .OrQuery (.mk (.cons (.InUserIdsQuery (some ⟨[]⟩)) (.cons (notChain 21 leafA) .nil)))

/-- An OR node over one leaf. -/
def orOfLeaf : SearchQuery :=
  .OrQuery (.mk (.cons leafA .nil))

/-- An AND node over a leaf and an OR node without children. -/
def andWithEmptyOr : SearchQuery :=
  .AndQuery (.mk (.cons leafA (.cons (.OrQuery (.mk .nil)) .nil)))

/-- A machine user with a stored secret and the given access-token type. -/
def machineUser (tokenType : Int) : User :=
  ⟨"user-1", "org-1", some ⟨some ⟨"bcrypt", "", [1, 2, 3]⟩, tokenType⟩⟩

/-- A server for the examples with the token-type conversion `conversion`: the lookup
returns `found`, and the comparison accepts exactly the secret `"right"`. -/
def sampleServerWith (conversion : Int → Int) (found : Option User × GoError) :
    Server String where
  NewUserLoginNamesSearchQuery := fun clientID => (some clientID, .nil)
  GetUser := fun _ => found
  CompareHash := fun _ comparer =>
    if comparer = "right" then .nil else .sentinel "crypto: hash mismatch"
  accessTokenTypeToOIDC := conversion

/-- A server for the examples: the lookup returns `found`, the comparison accepts
exactly the secret `"right"`, and every token type is exposed as the opaque bearer
type, as the spec words the token type of the client descriptor. -/
def sampleServer (found : Option User × GoError) : Server String :=
  sampleServerWith (fun _ => AccessTokenTypeBearer) found

/-- A `Queries` whose JSON-object query returns `result`. -/
def sampleQueries (result : Option OIDCClient × GoError) : Queries where
  QueryJSONObject := fun _ _ _ => result

/-- A write model for the examples: the appended events wait in `pending` until
`Reduce` applies them. -/
structure SampleModel where
  pending : List Nat
  applied : List Nat
  deriving DecidableEq, Repr

/-- The methods of the sample write model: `Reduce` rejects the event `0` and
otherwise applies the pending events in order; the model exists once an event is
applied. -/
def sampleWriteModel : existsWriteModel SampleModel String Nat where
  AppendEvents := fun wm events => ⟨wm.pending ++ events, wm.applied⟩
  Reduce := fun wm =>
    if 0 ∈ wm.pending then (wm, .sentinel "unknown event")
    else (⟨[], wm.applied ++ wm.pending⟩, .nil)
  Query := fun _ => "aggregate-1"
  Exists := fun wm => !wm.applied.isEmpty

/-- An eventstore for the examples: the push of no command fails, every other push
returns one event per command. -/
def sampleCommands : Commands Nat Nat where
  Push := fun cmds =>
    if cmds.isEmpty then ([], ThrowInternal .nil "V3-Sd2fg" "Errors.Internal")
    else (cmds, .nil)

variable {SQ : Type}

/-! ## Lemmas on the builder -/

/-- The body of `OrQueryToQuery` on a present message is the call of
`UserQueriesToQuery(q.Queries, level+1)` followed by the error check and the OR
constructor. -/
theorem OrQueryToQuery_mk (P : QueryPkg SQ) (queries : SearchQueries) (level frames : Nat) :
    OrQueryToQuery P (.mk queries) level frames =
      enter ⟨.OrQueryToQuery, level, frames⟩
        (thenConstruct (UserQueriesToQuery P queries ((level + 1) % 256) (frames + 1))
          P.NewUserOrSearchQuery) := by
  simp only [OrQueryToQuery, UserQueriesToQuery]

/-- The body of `AndQueryToQuery` on a present message is the call of
`UserQueriesToQuery(q.Queries, level+1)` followed by the error check and the AND
constructor. -/
theorem AndQueryToQuery_mk (P : QueryPkg SQ) (queries : SearchQueries) (level frames : Nat) :
    AndQueryToQuery P (.mk queries) level frames =
      enter ⟨.AndQueryToQuery, level, frames⟩
        (thenConstruct (UserQueriesToQuery P queries ((level + 1) % 256) (frames + 1))
          P.NewUserAndSearchQuery) := by
  simp only [AndQueryToQuery, UserQueriesToQuery]

theorem leaf_error (P : QueryPkg SQ) {α : Type} (q : Option α) (f : α → QueryResult SQ)
    (hf : ∀ m, P.Returns (f m).2) {v : Option SQ} {e : GoError}
    (h : leaf q f = .ret (v, e)) : P.Returns e := by
  cases q with
  | none => simp [leaf] at h
  | some m =>
    simp only [leaf, Go.ret.injEq] at h
    have := hf m
    rw [h] at this
    exact this

theorem buildError_mono (P : QueryPkg SQ) {a b : Nat} {e : GoError} (hab : a ≤ b)
    (h : P.BuildError a e) : P.BuildError b e := by
  rcases h with ⟨h1, h2⟩ | h | h
  · exact Or.inl ⟨h1, by omega⟩
  · exact Or.inr (Or.inl h)
  · exact Or.inr (Or.inr h)

mutual
theorem UserQueryToQuery_error (P : QueryPkg SQ) (query : SearchQuery) (level frames : Nat)
    (v : Option SQ) (e : GoError)
    (h : (UserQueryToQuery P query level frames).out = .ret (v, e)) (hne : e ≠ .nil) :
    P.BuildError (level + query.depth) e := by
  unfold UserQueryToQuery at h
  by_cases hl : 20 < level
  · simp [hl] at h
    exact Or.inl ⟨h.2.symm, by omega⟩
  · simp only [hl, if_false] at h
    cases query with
    | nilPtr => simp at h
    | unset => simp at h; exact Or.inr (Or.inl h.2.symm)
    | other t => simp at h; exact Or.inr (Or.inl h.2.symm)
    | OrQuery q => exact OrQueryToQuery_error P q level (frames + 1) v e h hne
    | AndQuery q => exact AndQueryToQuery_error P q level (frames + 1) v e h hne
    | NotQuery q => exact NotQueryToQuery_error P q level (frames + 1) v e h hne
    | UserNameQuery q => exact Or.inr (Or.inr (leaf_error P q _ (fun m => .username _ _) h))
    | FirstNameQuery q => exact Or.inr (Or.inr (leaf_error P q _ (fun m => .firstName _ _) h))
    | LastNameQuery q => exact Or.inr (Or.inr (leaf_error P q _ (fun m => .lastName _ _) h))
    | NickNameQuery q => exact Or.inr (Or.inr (leaf_error P q _ (fun m => .nickName _ _) h))
    | DisplayNameQuery q => exact Or.inr (Or.inr (leaf_error P q _ (fun m => .displayName _ _) h))
    | EmailQuery q => exact Or.inr (Or.inr (leaf_error P q _ (fun m => .email _ _) h))
    | StateQuery q => exact Or.inr (Or.inr (leaf_error P q _ (fun m => .state _) h))
    | TypeQuery q => exact Or.inr (Or.inr (leaf_error P q _ (fun m => .type _) h))
    | LoginNameQuery q => exact Or.inr (Or.inr (leaf_error P q _ (fun m => .loginName _ _) h))
    | ResourceOwner q => exact Or.inr (Or.inr (leaf_error P q _ (fun m => .resourceOwner _ _) h))
    | InUserIdsQuery q => exact Or.inr (Or.inr (leaf_error P q _ (fun m => .inUserIds _) h))
theorem loop_error (P : QueryPkg SQ) (queries : SearchQueries) (level frames : Nat)
    (v : Option (List (Option SQ))) (e : GoError)
    (h : (UserQueriesToQuery.loop P queries level frames).out = .ret (v, e)) (hne : e ≠ .nil) :
    P.BuildError (level + queries.depth - 1) e := by
  cases queries with
  | nil => simp [UserQueriesToQuery.loop] at h; exact absurd h.2.symm hne
  | cons query rest =>
    unfold UserQueriesToQuery.loop at h
    simp only at h
    split at h
    · simp at h
    · rename_i v1 e1 h1
      split at h
      · simp only [Go.ret.injEq, Prod.mk.injEq] at h
        obtain ⟨-, rfl⟩ := h
        refine buildError_mono P ?_ (UserQueryToQuery_error P query level (frames + 1) v1 e1 h1 hne)
        simp only [SearchQueries.depth]; omega
      · split at h
        · simp at h
        · rename_i e2 h2
          simp only [Go.ret.injEq, Prod.mk.injEq] at h
          obtain ⟨-, rfl⟩ := h
          refine buildError_mono P ?_ (loop_error P rest level frames none e2 h2 hne)
          simp only [SearchQueries.depth]; omega
        · rename_i vs e2 h2
          simp only [Go.ret.injEq, Prod.mk.injEq] at h
          obtain ⟨-, rfl⟩ := h
          refine buildError_mono P ?_ (loop_error P rest level frames (some vs) e2 h2 hne)
          simp only [SearchQueries.depth]; omega
theorem OrQueryToQuery_error (P : QueryPkg SQ) (q : OrQuery) (level frames : Nat)
    (v : Option SQ) (e : GoError)
    (h : (OrQueryToQuery P q level frames).out = .ret (v, e)) (hne : e ≠ .nil) :
    P.BuildError (level + q.depth) e := by
  cases q with
  | nilPtr => simp [OrQueryToQuery] at h
  | mk queries =>
    simp only [OrQueryToQuery, enter, thenConstruct] at h
    split at h
    · simp at h
    · rename_i v1 e1 h1
      split at h
      · simp only [Go.ret.injEq, Prod.mk.injEq] at h
        obtain ⟨-, rfl⟩ := h
        refine buildError_mono P ?_ (loop_error P queries _ _ v1 e1 h1 hne)
        simp only [OrQuery.depth]; omega
      · simp only [Go.ret.injEq] at h
        have hr : P.Returns (P.NewUserOrSearchQuery (v1.getD [])).2 := .or _
        rw [h] at hr
        exact Or.inr (Or.inr hr)
theorem AndQueryToQuery_error (P : QueryPkg SQ) (q : AndQuery) (level frames : Nat)
    (v : Option SQ) (e : GoError)
    (h : (AndQueryToQuery P q level frames).out = .ret (v, e)) (hne : e ≠ .nil) :
    P.BuildError (level + q.depth) e := by
  cases q with
  | nilPtr => simp [AndQueryToQuery] at h
  | mk queries =>
    simp only [AndQueryToQuery, enter, thenConstruct] at h
    split at h
    · simp at h
    · rename_i v1 e1 h1
      split at h
      · simp only [Go.ret.injEq, Prod.mk.injEq] at h
        obtain ⟨-, rfl⟩ := h
        refine buildError_mono P ?_ (loop_error P queries _ _ v1 e1 h1 hne)
        simp only [AndQuery.depth]; omega
      · simp only [Go.ret.injEq] at h
        have hr : P.Returns (P.NewUserAndSearchQuery (v1.getD [])).2 := .and _
        rw [h] at hr
        exact Or.inr (Or.inr hr)
theorem NotQueryToQuery_error (P : QueryPkg SQ) (q : NotQuery) (level frames : Nat)
    (v : Option SQ) (e : GoError)
    (h : (NotQueryToQuery P q level frames).out = .ret (v, e)) (hne : e ≠ .nil) :
    P.BuildError (level + q.depth) e := by
  cases q with
  | nilPtr => simp [NotQueryToQuery] at h
  | mk query =>
    simp only [NotQueryToQuery] at h
    split at h
    · simp at h
    · rename_i v1 e1 h1
      split at h
      · simp only [Go.ret.injEq, Prod.mk.injEq] at h
        obtain ⟨-, rfl⟩ := h
        refine buildError_mono P ?_ (UserQueryToQuery_error P query _ _ v1 e1 h1 hne)
        simp only [NotQuery.depth]; omega
      · simp only [Go.ret.injEq] at h
        have hr : P.Returns (P.NewUserNotSearchQuery v1).2 := .not _
        rw [h] at hr
        exact Or.inr (Or.inr hr)
end

theorem leaf_present {α : Type} (q : Option α) (f : α → QueryResult SQ)
    (h : q.isSome = true) : leaf q f ≠ .panic := by
  cases q with
  | none => simp at h
  | some m => simp [leaf]

mutual
theorem UserQueryToQuery_present (P : QueryPkg SQ) (query : SearchQuery) (level frames : Nat)
    (h : query.present = true) : (UserQueryToQuery P query level frames).out ≠ .panic := by
  unfold UserQueryToQuery
  by_cases hl : 20 < level
  · simp [hl]
  · simp only [hl, if_false]
    cases query with
    | nilPtr => simp [SearchQuery.present] at h
    | unset => simp
    | other t => simp
    | OrQuery q => exact OrQueryToQuery_present P q level (frames + 1) (by simpa [SearchQuery.present] using h)
    | AndQuery q => exact AndQueryToQuery_present P q level (frames + 1) (by simpa [SearchQuery.present] using h)
    | NotQuery q => exact NotQueryToQuery_present P q level (frames + 1) (by simpa [SearchQuery.present] using h)
    | UserNameQuery q => exact leaf_present q _ (by simpa [SearchQuery.present] using h)
    | FirstNameQuery q => exact leaf_present q _ (by simpa [SearchQuery.present] using h)
    | LastNameQuery q => exact leaf_present q _ (by simpa [SearchQuery.present] using h)
    | NickNameQuery q => exact leaf_present q _ (by simpa [SearchQuery.present] using h)
    | DisplayNameQuery q => exact leaf_present q _ (by simpa [SearchQuery.present] using h)
    | EmailQuery q => exact leaf_present q _ (by simpa [SearchQuery.present] using h)
    | StateQuery q => exact leaf_present q _ (by simpa [SearchQuery.present] using h)
    | TypeQuery q => exact leaf_present q _ (by simpa [SearchQuery.present] using h)
    | LoginNameQuery q => exact leaf_present q _ (by simpa [SearchQuery.present] using h)
    | ResourceOwner q => exact leaf_present q _ (by simpa [SearchQuery.present] using h)
    | InUserIdsQuery q => exact leaf_present q _ (by simpa [SearchQuery.present] using h)
theorem loop_present (P : QueryPkg SQ) (queries : SearchQueries) (level frames : Nat)
    (h : queries.present = true) :
    (UserQueriesToQuery.loop P queries level frames).out ≠ .panic := by
  cases queries with
  | nil => simp [UserQueriesToQuery.loop]
  | cons query rest =>
    simp only [SearchQueries.present, Bool.and_eq_true] at h
    have h1 := UserQueryToQuery_present P query level (frames + 1) h.1
    have h2 := loop_present P rest level frames h.2
    unfold UserQueriesToQuery.loop
    simp only
    split
    · rename_i hp; exact absurd hp h1
    · split
      · simp
      · split
        · rename_i hp; exact absurd hp h2
        · simp
        · simp
theorem OrQueryToQuery_present (P : QueryPkg SQ) (q : OrQuery) (level frames : Nat)
    (h : q.present = true) : (OrQueryToQuery P q level frames).out ≠ .panic := by
  cases q with
  | nilPtr => simp [OrQuery.present] at h
  | mk queries =>
    have h1 := loop_present P queries ((level + 1) % 256) (frames + 1)
      (by simpa [OrQuery.present] using h)
    simp only [OrQueryToQuery, enter, thenConstruct]
    split
    · rename_i hp; exact absurd hp h1
    · split <;> simp
theorem AndQueryToQuery_present (P : QueryPkg SQ) (q : AndQuery) (level frames : Nat)
    (h : q.present = true) : (AndQueryToQuery P q level frames).out ≠ .panic := by
  cases q with
  | nilPtr => simp [AndQuery.present] at h
  | mk queries =>
    have h1 := loop_present P queries ((level + 1) % 256) (frames + 1)
      (by simpa [AndQuery.present] using h)
    simp only [AndQueryToQuery, enter, thenConstruct]
    split
    · rename_i hp; exact absurd hp h1
    · split <;> simp
theorem NotQueryToQuery_present (P : QueryPkg SQ) (q : NotQuery) (level frames : Nat)
    (h : q.present = true) : (NotQueryToQuery P q level frames).out ≠ .panic := by
  cases q with
  | nilPtr => simp [NotQuery.present] at h
  | mk query =>
    have h1 := UserQueryToQuery_present P query ((level + 1) % 256) (frames + 1)
      (by simpa [NotQuery.present] using h)
    simp only [NotQueryToQuery]
    split
    · rename_i hp; exact absurd hp h1
    · split <;> simp
end

theorem errTooManyNestingLevels_ne_nil : errTooManyNestingLevels ≠ .nil := by
  simp [errTooManyNestingLevels, ThrowInvalidArgument]

mutual
theorem UserQueryToQuery_deep (P : QueryPkg SQ) (query : SearchQuery) (level frames : Nat)
    (hl : level ≤ 21) (hd : 20 < level + query.depth) :
    (UserQueryToQuery P query level frames).out = .panic ∨
      Fails (UserQueryToQuery P query level frames).out := by
  unfold UserQueryToQuery
  by_cases hl : 20 < level
  · simp only [hl, if_true]
    exact Or.inr ⟨_, errTooManyNestingLevels_ne_nil, rfl⟩
  · simp only [hl, if_false]
    cases query with
    | OrQuery q =>
      exact OrQueryToQuery_deep P q level (frames + 1) (by omega) (by simpa [SearchQuery.depth] using hd)
    | AndQuery q =>
      exact AndQueryToQuery_deep P q level (frames + 1) (by omega) (by simpa [SearchQuery.depth] using hd)
    | NotQuery q =>
      exact NotQueryToQuery_deep P q level (frames + 1) (by omega) (by simpa [SearchQuery.depth] using hd)
    | _ => simp only [SearchQuery.depth] at hd; omega
theorem loop_deep (P : QueryPkg SQ) (queries : SearchQueries) (level frames : Nat)
    (hl : level ≤ 21) (hd : 21 < level + queries.depth) :
    (UserQueriesToQuery.loop P queries level frames).out = .panic ∨
      Fails (UserQueriesToQuery.loop P queries level frames).out := by
  cases queries with
  | nil => simp only [SearchQueries.depth] at hd; omega
  | cons query rest =>
    simp only [SearchQueries.depth] at hd
    unfold UserQueriesToQuery.loop
    simp only
    split
    · exact Or.inl rfl
    · rename_i v1 e1 h1
      split
      · rename_i hne
        exact Or.inr ⟨e1, hne, rfl⟩
      · rename_i he
        simp only [ne_eq, not_not] at he
        have hq : ¬ 20 < level + query.depth := by
          intro hq
          rcases UserQueryToQuery_deep P query level (frames + 1) hl hq with hp | ⟨e, hne, hp⟩
          · rw [h1] at hp; simp at hp
          · rw [h1] at hp
            simp only [Go.ret.injEq, Prod.mk.injEq] at hp
            exact hne (hp.2 ▸ he)
        have hr : 21 < level + rest.depth := by omega
        rcases loop_deep P rest level frames hl hr with hp | ⟨e, hne, hp⟩
        · rw [hp]; exact Or.inl rfl
        · rw [hp]; exact Or.inr ⟨e, hne, rfl⟩
theorem OrQueryToQuery_deep (P : QueryPkg SQ) (q : OrQuery) (level frames : Nat)
    (hl : level ≤ 20) (hd : 20 < level + q.depth) :
    (OrQueryToQuery P q level frames).out = .panic ∨
      Fails (OrQueryToQuery P q level frames).out := by
  cases q with
  | nilPtr => exact Or.inl rfl
  | mk queries =>
    have hm : (level + 1) % 256 = level + 1 := by omega
    simp only [OrQuery.depth] at hd
    simp only [OrQueryToQuery, enter, thenConstruct, hm]
    rcases loop_deep P queries (level + 1) (frames + 1) (by omega) (by omega) with
      hp | ⟨e, hne, hp⟩
    · rw [hp]; exact Or.inl rfl
    · rw [hp]; simp only [hne, ne_eq, not_false_eq_true, if_true]
      exact Or.inr ⟨e, hne, rfl⟩
theorem AndQueryToQuery_deep (P : QueryPkg SQ) (q : AndQuery) (level frames : Nat)
    (hl : level ≤ 20) (hd : 20 < level + q.depth) :
    (AndQueryToQuery P q level frames).out = .panic ∨
      Fails (AndQueryToQuery P q level frames).out := by
  cases q with
  | nilPtr => exact Or.inl rfl
  | mk queries =>
    have hm : (level + 1) % 256 = level + 1 := by omega
    simp only [AndQuery.depth] at hd
    simp only [AndQueryToQuery, enter, thenConstruct, hm]
    rcases loop_deep P queries (level + 1) (frames + 1) (by omega) (by omega) with
      hp | ⟨e, hne, hp⟩
    · rw [hp]; exact Or.inl rfl
    · rw [hp]; simp only [hne, ne_eq, not_false_eq_true, if_true]
      exact Or.inr ⟨e, hne, rfl⟩
theorem NotQueryToQuery_deep (P : QueryPkg SQ) (q : NotQuery) (level frames : Nat)
    (hl : level ≤ 20) (hd : 20 < level + q.depth) :
    (NotQueryToQuery P q level frames).out = .panic ∨
      Fails (NotQueryToQuery P q level frames).out := by
  cases q with
  | nilPtr => exact Or.inl rfl
  | mk query =>
    have hm : (level + 1) % 256 = level + 1 := by omega
    simp only [NotQuery.depth] at hd
    simp only [NotQueryToQuery, hm]
    rcases UserQueryToQuery_deep P query (level + 1) (frames + 1) (by omega) (by omega) with
      hp | ⟨e, hne, hp⟩
    · rw [hp]; exact Or.inl rfl
    · rw [hp]; simp only [hne, ne_eq, not_false_eq_true, if_true]
      exact Or.inr ⟨e, hne, rfl⟩
end

theorem errNil_ret (g : Go (QueryResult SQ)) (h1 : g ≠ .panic) (h2 : errNil g = true) :
    ∃ v, g = .ret (v, .nil) := by
  cases g with
  | panic => exact absurd rfl h1
  | ret r =>
    obtain ⟨v, e⟩ := r
    simp only [errNil, decide_eq_true_eq] at h2
    exact ⟨v, by rw [h2]⟩

mutual
theorem UserQueryToQuery_success (P : QueryPkg SQ) (hc : P.CombinatorsSucceed)
    (query : SearchQuery) (level frames : Nat)
    (hd : level + query.depth ≤ 20) (hp : query.present = true)
    (hr : query.recognised = true) (hs : query.leavesSucceed P = true) :
    ∃ v, (UserQueryToQuery P query level frames).out = .ret (v, .nil) := by
  unfold UserQueryToQuery
  have hl : ¬ 20 < level := by omega
  simp only [hl, if_false]
  cases query with
  | nilPtr => simp [SearchQuery.present] at hp
  | unset => simp [SearchQuery.recognised] at hr
  | other t => simp [SearchQuery.recognised] at hr
  | OrQuery q =>
    exact OrQueryToQuery_success P hc q level (frames + 1)
      (by simpa [SearchQuery.depth] using hd) (by simpa [SearchQuery.present] using hp)
      (by simpa [SearchQuery.recognised] using hr) (by simpa [SearchQuery.leavesSucceed] using hs)
  | AndQuery q =>
    exact AndQueryToQuery_success P hc q level (frames + 1)
      (by simpa [SearchQuery.depth] using hd) (by simpa [SearchQuery.present] using hp)
      (by simpa [SearchQuery.recognised] using hr) (by simpa [SearchQuery.leavesSucceed] using hs)
  | NotQuery q =>
    exact NotQueryToQuery_success P hc q level (frames + 1)
      (by simpa [SearchQuery.depth] using hd) (by simpa [SearchQuery.present] using hp)
      (by simpa [SearchQuery.recognised] using hr) (by simpa [SearchQuery.leavesSucceed] using hs)
  | UserNameQuery q => exact errNil_ret _ (leaf_present q _ (by simpa [SearchQuery.present] using hp)) (by simpa [SearchQuery.leavesSucceed] using hs)
  | FirstNameQuery q => exact errNil_ret _ (leaf_present q _ (by simpa [SearchQuery.present] using hp)) (by simpa [SearchQuery.leavesSucceed] using hs)
  | LastNameQuery q => exact errNil_ret _ (leaf_present q _ (by simpa [SearchQuery.present] using hp)) (by simpa [SearchQuery.leavesSucceed] using hs)
  | NickNameQuery q => exact errNil_ret _ (leaf_present q _ (by simpa [SearchQuery.present] using hp)) (by simpa [SearchQuery.leavesSucceed] using hs)
  | DisplayNameQuery q => exact errNil_ret _ (leaf_present q _ (by simpa [SearchQuery.present] using hp)) (by simpa [SearchQuery.leavesSucceed] using hs)
  | EmailQuery q => exact errNil_ret _ (leaf_present q _ (by simpa [SearchQuery.present] using hp)) (by simpa [SearchQuery.leavesSucceed] using hs)
  | StateQuery q => exact errNil_ret _ (leaf_present q _ (by simpa [SearchQuery.present] using hp)) (by simpa [SearchQuery.leavesSucceed] using hs)
  | TypeQuery q => exact errNil_ret _ (leaf_present q _ (by simpa [SearchQuery.present] using hp)) (by simpa [SearchQuery.leavesSucceed] using hs)
  | LoginNameQuery q => exact errNil_ret _ (leaf_present q _ (by simpa [SearchQuery.present] using hp)) (by simpa [SearchQuery.leavesSucceed] using hs)
  | ResourceOwner q => exact errNil_ret _ (leaf_present q _ (by simpa [SearchQuery.present] using hp)) (by simpa [SearchQuery.leavesSucceed] using hs)
  | InUserIdsQuery q => exact errNil_ret _ (leaf_present q _ (by simpa [SearchQuery.present] using hp)) (by simpa [SearchQuery.leavesSucceed] using hs)
theorem loop_success (P : QueryPkg SQ) (hc : P.CombinatorsSucceed)
    (queries : SearchQueries) (level frames : Nat)
    (hd : level + queries.depth ≤ 21) (hp : queries.present = true)
    (hr : queries.recognised = true) (hs : queries.leavesSucceed P = true) :
    ∃ vs, (UserQueriesToQuery.loop P queries level frames).out = .ret (some vs, .nil) := by
  cases queries with
  | nil => exact ⟨[], rfl⟩
  | cons query rest =>
    simp only [SearchQueries.depth] at hd
    simp only [SearchQueries.present, Bool.and_eq_true] at hp
    simp only [SearchQueries.recognised, Bool.and_eq_true] at hr
    simp only [SearchQueries.leavesSucceed, Bool.and_eq_true] at hs
    obtain ⟨v, h1⟩ := UserQueryToQuery_success P hc query level (frames + 1) (by omega)
      hp.1 hr.1 hs.1
    obtain ⟨vs, h2⟩ := loop_success P hc rest level frames (by omega) hp.2 hr.2 hs.2
    unfold UserQueriesToQuery.loop
    simp only [h1, h2, ne_eq, not_true_eq_false, if_false]
    exact ⟨v :: vs, rfl⟩
theorem OrQueryToQuery_success (P : QueryPkg SQ) (hc : P.CombinatorsSucceed)
    (q : OrQuery) (level frames : Nat)
    (hd : level + q.depth ≤ 20) (hp : q.present = true)
    (hr : q.recognised = true) (hs : q.leavesSucceed P = true) :
    ∃ v, (OrQueryToQuery P q level frames).out = .ret (v, .nil) := by
  cases q with
  | nilPtr => simp [OrQuery.present] at hp
  | mk queries =>
    have hm : (level + 1) % 256 = level + 1 := by omega
    simp only [OrQuery.depth] at hd
    obtain ⟨vs, h1⟩ := loop_success P hc queries (level + 1) (frames + 1) (by omega)
      (by simpa [OrQuery.present] using hp) (by simpa [OrQuery.recognised] using hr)
      (by simpa [OrQuery.leavesSucceed] using hs)
    simp only [OrQueryToQuery, enter, thenConstruct, hm, h1, ne_eq, not_true_eq_false, if_false]
    refine ⟨(P.NewUserOrSearchQuery vs).1, ?_⟩
    have := hc.1 vs
    simp only [Option.getD_some, Go.ret.injEq]
    exact Prod.ext rfl this
theorem AndQueryToQuery_success (P : QueryPkg SQ) (hc : P.CombinatorsSucceed)
    (q : AndQuery) (level frames : Nat)
    (hd : level + q.depth ≤ 20) (hp : q.present = true)
    (hr : q.recognised = true) (hs : q.leavesSucceed P = true) :
    ∃ v, (AndQueryToQuery P q level frames).out = .ret (v, .nil) := by
  cases q with
  | nilPtr => simp [AndQuery.present] at hp
  | mk queries =>
    have hm : (level + 1) % 256 = level + 1 := by omega
    simp only [AndQuery.depth] at hd
    obtain ⟨vs, h1⟩ := loop_success P hc queries (level + 1) (frames + 1) (by omega)
      (by simpa [AndQuery.present] using hp) (by simpa [AndQuery.recognised] using hr)
      (by simpa [AndQuery.leavesSucceed] using hs)
    simp only [AndQueryToQuery, enter, thenConstruct, hm, h1, ne_eq, not_true_eq_false, if_false]
    refine ⟨(P.NewUserAndSearchQuery vs).1, ?_⟩
    have := hc.2.1 vs
    simp only [Option.getD_some, Go.ret.injEq]
    exact Prod.ext rfl this
theorem NotQueryToQuery_success (P : QueryPkg SQ) (hc : P.CombinatorsSucceed)
    (q : NotQuery) (level frames : Nat)
    (hd : level + q.depth ≤ 20) (hp : q.present = true)
    (hr : q.recognised = true) (hs : q.leavesSucceed P = true) :
    ∃ v, (NotQueryToQuery P q level frames).out = .ret (v, .nil) := by
  cases q with
  | nilPtr => simp [NotQuery.present] at hp
  | mk query =>
    have hm : (level + 1) % 256 = level + 1 := by omega
    simp only [NotQuery.depth] at hd
    obtain ⟨v, h1⟩ := UserQueryToQuery_success P hc query (level + 1) (frames + 1) (by omega)
      (by simpa [NotQuery.present] using hp) (by simpa [NotQuery.recognised] using hr)
      (by simpa [NotQuery.leavesSucceed] using hs)
    simp only [NotQueryToQuery, hm, h1, ne_eq, not_true_eq_false, if_false]
    refine ⟨(P.NewUserNotSearchQuery v).1, ?_⟩
    have := hc.2.2 v
    simp only [Go.ret.injEq]
    exact Prod.ext rfl this
end

theorem bounded_mono {c : Call} {level budget reach level2 budget2 reach2 : Nat}
    (h : c.Bounded level budget reach) (hb : budget + 3 * level2 ≤ budget2 + 3 * level)
    (hr : reach ≤ reach2) : c.Bounded level2 budget2 reach2 :=
  ⟨h.1, by have := h.2.1; omega, fun hf => le_trans (h.2.2 hf) hr⟩

theorem loop_calls_cons (P : QueryPkg SQ) (query : SearchQuery) (rest : SearchQueries)
    (level frames : Nat) (c : Call)
    (hc : c ∈ (UserQueriesToQuery.loop P (.cons query rest) level frames).calls) :
    c ∈ (UserQueryToQuery P query level (frames + 1)).calls ∨
      c ∈ (UserQueriesToQuery.loop P rest level frames).calls := by
  unfold UserQueriesToQuery.loop at hc
  simp only at hc
  split at hc
  · exact Or.inl hc
  · split at hc
    · exact Or.inl hc
    · split at hc <;> exact List.mem_append.mp hc

theorem thenConstruct_calls (r : Run (QueriesResult SQ))
    (f : List (Option SQ) → QueryResult SQ) : (thenConstruct r f).calls = r.calls := by
  unfold thenConstruct
  split
  · rfl
  · split <;> rfl

theorem NotQueryToQuery_calls_mk (P : QueryPkg SQ) (query : SearchQuery) (level frames : Nat) :
    (NotQueryToQuery P (.mk query) level frames).calls =
      ⟨.NotQueryToQuery, level, frames⟩ ::
        (UserQueryToQuery P query ((level + 1) % 256) (frames + 1)).calls := by
  simp only [NotQueryToQuery]
  split
  · rfl
  · split <;> rfl

mutual
theorem UserQueryToQuery_calls (P : QueryPkg SQ) (query : SearchQuery) (level frames : Nat)
    (hl : level ≤ 21) (c : Call) (hc : c ∈ (UserQueryToQuery P query level frames).calls) :
    c.Bounded level (frames + 63) (level + query.depth) := by
  have own : (⟨.UserQueryToQuery, level, frames⟩ : Call).Bounded level (frames + 63)
      (level + query.depth) := ⟨hl, by simp only; omega, fun _ => by simp only; omega⟩
  unfold UserQueryToQuery at hc
  by_cases h20 : 20 < level
  · simp only [h20, if_true, List.mem_singleton] at hc
    exact hc ▸ own
  · simp only [h20, if_false] at hc
    cases query with
    | OrQuery q =>
      simp only [enter, List.mem_cons] at hc
      rcases hc with rfl | hc
      · exact own
      · exact bounded_mono (OrQueryToQuery_calls P q level (frames + 1) (by omega) c hc) (by omega)
          (by simp [SearchQuery.depth])
    | AndQuery q =>
      simp only [enter, List.mem_cons] at hc
      rcases hc with rfl | hc
      · exact own
      · exact bounded_mono (AndQueryToQuery_calls P q level (frames + 1) (by omega) c hc) (by omega)
          (by simp [SearchQuery.depth])
    | NotQuery q =>
      simp only [enter, List.mem_cons] at hc
      rcases hc with rfl | hc
      · exact own
      · exact bounded_mono (NotQueryToQuery_calls P q level (frames + 1) (by omega) c hc) (by omega)
          (by simp [SearchQuery.depth])
    | _ =>
      simp only [List.mem_singleton] at hc
      exact hc ▸ own
theorem loop_calls (P : QueryPkg SQ) (queries : SearchQueries) (level frames : Nat)
    (hl : level ≤ 21) (c : Call)
    (hc : c ∈ (UserQueriesToQuery.loop P queries level frames).calls) :
    c.Bounded level (frames + 64) (level + queries.depth - 1) := by
  cases queries with
  | nil => simp [UserQueriesToQuery.loop] at hc
  | cons query rest =>
    rcases loop_calls_cons P query rest level frames c hc with h | h
    · exact bounded_mono (UserQueryToQuery_calls P query level (frames + 1) hl c h) (by omega)
        (by simp only [SearchQueries.depth]; omega)
    · exact bounded_mono (loop_calls P rest level frames hl c h) (by omega)
        (by simp only [SearchQueries.depth]; omega)
theorem OrQueryToQuery_calls (P : QueryPkg SQ) (q : OrQuery) (level frames : Nat)
    (hl : level ≤ 20) (c : Call) (hc : c ∈ (OrQueryToQuery P q level frames).calls) :
    c.Bounded level (frames + 62) (level + q.depth) := by
  have hm : (level + 1) % 256 = level + 1 := by omega
  cases q with
  | nilPtr =>
    simp only [OrQueryToQuery, List.mem_singleton] at hc
    subst hc
    exact ⟨by simp only; omega, by simp only; omega, fun hf => by simp at hf⟩
  | mk queries =>
    simp only [OrQueryToQuery, enter, thenConstruct_calls, hm, List.mem_cons] at hc
    rcases hc with rfl | rfl | hc
    · exact ⟨by simp only; omega, by simp only; omega, fun hf => by simp at hf⟩
    · exact ⟨by simp only; omega, by simp only; omega, fun hf => by simp at hf⟩
    · exact bounded_mono (loop_calls P queries (level + 1) (frames + 1) (by omega) c hc) (by omega)
        (by simp only [OrQuery.depth]; omega)
theorem AndQueryToQuery_calls (P : QueryPkg SQ) (q : AndQuery) (level frames : Nat)
    (hl : level ≤ 20) (c : Call) (hc : c ∈ (AndQueryToQuery P q level frames).calls) :
    c.Bounded level (frames + 62) (level + q.depth) := by
  have hm : (level + 1) % 256 = level + 1 := by omega
  cases q with
  | nilPtr =>
    simp only [AndQueryToQuery, List.mem_singleton] at hc
    subst hc
    exact ⟨by simp only; omega, by simp only; omega, fun hf => by simp at hf⟩
  | mk queries =>
    simp only [AndQueryToQuery, enter, thenConstruct_calls, hm, List.mem_cons] at hc
    rcases hc with rfl | rfl | hc
    · exact ⟨by simp only; omega, by simp only; omega, fun hf => by simp at hf⟩
    · exact ⟨by simp only; omega, by simp only; omega, fun hf => by simp at hf⟩
    · exact bounded_mono (loop_calls P queries (level + 1) (frames + 1) (by omega) c hc) (by omega)
        (by simp only [AndQuery.depth]; omega)
theorem NotQueryToQuery_calls (P : QueryPkg SQ) (q : NotQuery) (level frames : Nat)
    (hl : level ≤ 20) (c : Call) (hc : c ∈ (NotQueryToQuery P q level frames).calls) :
    c.Bounded level (frames + 62) (level + q.depth) := by
  have hm : (level + 1) % 256 = level + 1 := by omega
  cases q with
  | nilPtr =>
    simp only [NotQueryToQuery, List.mem_singleton] at hc
    subst hc
    exact ⟨by simp only; omega, by simp only; omega, fun hf => by simp at hf⟩
  | mk query =>
    rw [NotQueryToQuery_calls_mk, hm] at hc
    simp only [List.mem_cons] at hc
    rcases hc with rfl | hc
    · exact ⟨by simp only; omega, by simp only; omega, fun hf => by simp at hf⟩
    · exact bounded_mono (UserQueryToQuery_calls P query (level + 1) (frames + 1) (by omega) c hc)
        (by omega) (by simp only [NotQuery.depth]; omega)
end

theorem Origin.lift {e : GoError} {reach reach2 : Nat} {r r2 : Bool} {c c2 : Prop}
    (h : Origin e reach r c) (hreach : reach ≤ reach2) (hr : r = false → r2 = false)
    (hc : c → c2) : Origin e reach2 r2 c2 := by
  rcases h with ⟨h1, h2⟩ | ⟨h1, h2⟩ | h
  · exact Or.inl ⟨h1, by omega⟩
  · exact Or.inr (Or.inl ⟨h1, hr h2⟩)
  · exact Or.inr (Or.inr (hc h))

/-- A loop that returns a nil slice returns a non-nil error. -/
theorem loop_none_ne_nil (P : QueryPkg SQ) (queries : SearchQueries) (level frames : Nat)
    (e : GoError) (h : (UserQueriesToQuery.loop P queries level frames).out = .ret (none, e)) :
    e ≠ .nil := by
  cases queries with
  | nil => simp [UserQueriesToQuery.loop] at h
  | cons query rest =>
    unfold UserQueriesToQuery.loop at h
    simp only at h
    split at h
    · simp at h
    · split at h
      · rename_i hne
        simp only [Go.ret.injEq, Prod.mk.injEq, true_and] at h
        exact h ▸ hne
      · split at h
        · simp at h
        · rename_i e2 h2
          simp only [Go.ret.injEq, Prod.mk.injEq, true_and] at h
          exact h ▸ loop_none_ne_nil P rest level frames e2 h2
        · simp at h

mutual
theorem UserQueryToQuery_origin (P : QueryPkg SQ) (query : SearchQuery) (level frames : Nat)
    (v : Option SQ) (e : GoError)
    (h : (UserQueryToQuery P query level frames).out = .ret (v, e)) (hne : e ≠ .nil) :
    Origin e (level + query.depth) query.recognised (query.ctorError P level e) := by
  unfold UserQueryToQuery at h
  by_cases hl : 20 < level
  · simp [hl] at h
    exact Or.inl ⟨h.2.symm, by omega⟩
  · simp only [hl, if_false] at h
    have hl2 : level ≤ 20 := by omega
    cases query with
    | nilPtr => simp at h
    | unset => simp at h; exact Or.inr (Or.inl ⟨h.2.symm, rfl⟩)
    | other t => simp at h; exact Or.inr (Or.inl ⟨h.2.symm, rfl⟩)
    | OrQuery q =>
      exact (OrQueryToQuery_origin P q level (frames + 1) v e h hne).lift
        (by simp [SearchQuery.depth]) (by simp [SearchQuery.recognised])
        (fun hc => by simp only [SearchQuery.ctorError]; exact ⟨hl2, hc⟩)
    | AndQuery q =>
      exact (AndQueryToQuery_origin P q level (frames + 1) v e h hne).lift
        (by simp [SearchQuery.depth]) (by simp [SearchQuery.recognised])
        (fun hc => by simp only [SearchQuery.ctorError]; exact ⟨hl2, hc⟩)
    | NotQuery q =>
      exact (NotQueryToQuery_origin P q level (frames + 1) v e h hne).lift
        (by simp [SearchQuery.depth]) (by simp [SearchQuery.recognised])
        (fun hc => by simp only [SearchQuery.ctorError]; exact ⟨hl2, hc⟩)
    | UserNameQuery q => exact Or.inr (Or.inr (by simp only [SearchQuery.ctorError]; exact ⟨hl2, v, h⟩))
    | FirstNameQuery q => exact Or.inr (Or.inr (by simp only [SearchQuery.ctorError]; exact ⟨hl2, v, h⟩))
    | LastNameQuery q => exact Or.inr (Or.inr (by simp only [SearchQuery.ctorError]; exact ⟨hl2, v, h⟩))
    | NickNameQuery q => exact Or.inr (Or.inr (by simp only [SearchQuery.ctorError]; exact ⟨hl2, v, h⟩))
    | DisplayNameQuery q => exact Or.inr (Or.inr (by simp only [SearchQuery.ctorError]; exact ⟨hl2, v, h⟩))
    | EmailQuery q => exact Or.inr (Or.inr (by simp only [SearchQuery.ctorError]; exact ⟨hl2, v, h⟩))
    | StateQuery q => exact Or.inr (Or.inr (by simp only [SearchQuery.ctorError]; exact ⟨hl2, v, h⟩))
    | TypeQuery q => exact Or.inr (Or.inr (by simp only [SearchQuery.ctorError]; exact ⟨hl2, v, h⟩))
    | LoginNameQuery q => exact Or.inr (Or.inr (by simp only [SearchQuery.ctorError]; exact ⟨hl2, v, h⟩))
    | ResourceOwner q => exact Or.inr (Or.inr (by simp only [SearchQuery.ctorError]; exact ⟨hl2, v, h⟩))
    | InUserIdsQuery q => exact Or.inr (Or.inr (by simp only [SearchQuery.ctorError]; exact ⟨hl2, v, h⟩))
theorem loop_origin (P : QueryPkg SQ) (queries : SearchQueries) (level frames : Nat)
    (v : Option (List (Option SQ))) (e : GoError)
    (h : (UserQueriesToQuery.loop P queries level frames).out = .ret (v, e)) (hne : e ≠ .nil) :
    Origin e (level + queries.depth - 1) queries.recognised (queries.ctorError P level e) := by
  cases queries with
  | nil => simp [UserQueriesToQuery.loop] at h; exact absurd h.2.symm hne
  | cons query rest =>
    unfold UserQueriesToQuery.loop at h
    simp only at h
    split at h
    · simp at h
    · rename_i v1 e1 h1
      split at h
      · simp only [Go.ret.injEq, Prod.mk.injEq] at h
        obtain ⟨-, rfl⟩ := h
        exact (UserQueryToQuery_origin P query level (frames + 1) v1 e1 h1 hne).lift
          (by simp only [SearchQueries.depth]; omega)
          (fun hr => by simp [SearchQueries.recognised, hr])
          (fun hc => by simp only [SearchQueries.ctorError]; exact Or.inl hc)
      · rename_i he
        simp only [ne_eq, not_not] at he
        subst he
        have hfirst : ∃ v frames, (UserQueryToQuery P query level frames).out = .ret (v, .nil) :=
          ⟨v1, frames + 1, h1⟩
        split at h
        · simp at h
        · rename_i e2 h2
          simp only [Go.ret.injEq, Prod.mk.injEq] at h
          obtain ⟨-, rfl⟩ := h
          exact (loop_origin P rest level frames none e2 h2 hne).lift
            (by simp only [SearchQueries.depth]; omega)
            (fun hr => by simp [SearchQueries.recognised, hr])
            (fun hc => by simp only [SearchQueries.ctorError]; exact Or.inr ⟨hfirst, hc⟩)
        · rename_i vs e2 h2
          simp only [Go.ret.injEq, Prod.mk.injEq] at h
          obtain ⟨-, rfl⟩ := h
          exact (loop_origin P rest level frames (some vs) e2 h2 hne).lift
            (by simp only [SearchQueries.depth]; omega)
            (fun hr => by simp [SearchQueries.recognised, hr])
            (fun hc => by simp only [SearchQueries.ctorError]; exact Or.inr ⟨hfirst, hc⟩)
theorem OrQueryToQuery_origin (P : QueryPkg SQ) (q : OrQuery) (level frames : Nat)
    (v : Option SQ) (e : GoError)
    (h : (OrQueryToQuery P q level frames).out = .ret (v, e)) (hne : e ≠ .nil) :
    Origin e (level + q.depth) q.recognised (q.ctorError P level e) := by
  cases q with
  | nilPtr => simp [OrQueryToQuery] at h
  | mk queries =>
    simp only [OrQueryToQuery, enter, thenConstruct] at h
    split at h
    · simp at h
    · rename_i v1 e1 h1
      split at h
      · simp only [Go.ret.injEq, Prod.mk.injEq] at h
        obtain ⟨-, rfl⟩ := h
        exact (loop_origin P queries _ _ v1 e1 h1 hne).lift
          (by simp only [OrQuery.depth]; omega) (by simp [OrQuery.recognised])
          (fun hc => by simp only [OrQuery.ctorError]; exact Or.inl hc)
      · rename_i he
        simp only [ne_eq, not_not] at he
        subst he
        simp only [Go.ret.injEq] at h
        cases v1 with
        | none => exact absurd rfl (loop_none_ne_nil P queries _ _ _ h1)
        | some vs =>
          refine Or.inr (Or.inr ?_)
          simp only [OrQuery.ctorError]
          exact Or.inr ⟨vs, _, h1, by simp only [Option.getD_some] at h; rw [h]⟩
theorem AndQueryToQuery_origin (P : QueryPkg SQ) (q : AndQuery) (level frames : Nat)
    (v : Option SQ) (e : GoError)
    (h : (AndQueryToQuery P q level frames).out = .ret (v, e)) (hne : e ≠ .nil) :
    Origin e (level + q.depth) q.recognised (q.ctorError P level e) := by
  cases q with
  | nilPtr => simp [AndQueryToQuery] at h
  | mk queries =>
    simp only [AndQueryToQuery, enter, thenConstruct] at h
    split at h
    · simp at h
    · rename_i v1 e1 h1
      split at h
      · simp only [Go.ret.injEq, Prod.mk.injEq] at h
        obtain ⟨-, rfl⟩ := h
        exact (loop_origin P queries _ _ v1 e1 h1 hne).lift
          (by simp only [AndQuery.depth]; omega) (by simp [AndQuery.recognised])
          (fun hc => by simp only [AndQuery.ctorError]; exact Or.inl hc)
      · rename_i he
        simp only [ne_eq, not_not] at he
        subst he
        simp only [Go.ret.injEq] at h
        cases v1 with
        | none => exact absurd rfl (loop_none_ne_nil P queries _ _ _ h1)
        | some vs =>
          refine Or.inr (Or.inr ?_)
          simp only [AndQuery.ctorError]
          exact Or.inr ⟨vs, _, h1, by simp only [Option.getD_some] at h; rw [h]⟩
theorem NotQueryToQuery_origin (P : QueryPkg SQ) (q : NotQuery) (level frames : Nat)
    (v : Option SQ) (e : GoError)
    (h : (NotQueryToQuery P q level frames).out = .ret (v, e)) (hne : e ≠ .nil) :
    Origin e (level + q.depth) q.recognised (q.ctorError P level e) := by
  cases q with
  | nilPtr => simp [NotQueryToQuery] at h
  | mk query =>
    simp only [NotQueryToQuery] at h
    split at h
    · simp at h
    · rename_i v1 e1 h1
      split at h
      · simp only [Go.ret.injEq, Prod.mk.injEq] at h
        obtain ⟨-, rfl⟩ := h
        exact (UserQueryToQuery_origin P query _ _ v1 e1 h1 hne).lift
          (by simp only [NotQuery.depth]; omega) (by simp [NotQuery.recognised])
          (fun hc => by simp only [NotQuery.ctorError]; exact Or.inl hc)
      · rename_i he
        simp only [ne_eq, not_not] at he
        subst he
        simp only [Go.ret.injEq] at h
        refine Or.inr (Or.inr ?_)
        simp only [NotQuery.ctorError]
        exact Or.inr ⟨v1, _, h1, by rw [h]⟩
end

/-- Bound on one logged call of a run entered at `level`: it is not at a smaller level,
and a combinator converter other than the one entered at `level` itself runs at a
level of at most 20. -/
theorem levels_own (fn : Fn) (level frames : Nat) (h : fn.isCombinator = true → level ≤ 20) :
    level ≤ (⟨fn, level, frames⟩ : Call).level ∧
      ((⟨fn, level, frames⟩ : Call).fn.isCombinator = true →
        (⟨fn, level, frames⟩ : Call).level ≤ 20) :=
  ⟨le_refl _, h⟩

mutual
theorem UserQueryToQuery_levels (P : QueryPkg SQ) (query : SearchQuery) (level frames : Nat)
    (c : Call) (hc : c ∈ (UserQueryToQuery P query level frames).calls) :
    level ≤ c.level ∧ (c.fn.isCombinator = true → c.level ≤ 20) := by
  have own := levels_own .UserQueryToQuery level frames (fun h => by simp [Fn.isCombinator] at h)
  unfold UserQueryToQuery at hc
  by_cases h20 : 20 < level
  · simp only [h20, if_true, List.mem_singleton] at hc
    exact hc ▸ own
  · simp only [h20, if_false] at hc
    cases query with
    | OrQuery q =>
      simp only [enter, List.mem_cons] at hc
      rcases hc with rfl | hc
      · exact own
      · have := OrQueryToQuery_levels P q level (frames + 1) (by omega) c hc
        exact ⟨this.1, fun hf => by rcases this.2 hf with h | h <;> omega⟩
    | AndQuery q =>
      simp only [enter, List.mem_cons] at hc
      rcases hc with rfl | hc
      · exact own
      · have := AndQueryToQuery_levels P q level (frames + 1) (by omega) c hc
        exact ⟨this.1, fun hf => by rcases this.2 hf with h | h <;> omega⟩
    | NotQuery q =>
      simp only [enter, List.mem_cons] at hc
      rcases hc with rfl | hc
      · exact own
      · have := NotQueryToQuery_levels P q level (frames + 1) (by omega) c hc
        exact ⟨this.1, fun hf => by rcases this.2 hf with h | h <;> omega⟩
    | _ =>
      simp only [List.mem_singleton] at hc
      exact hc ▸ own
theorem loop_levels (P : QueryPkg SQ) (queries : SearchQueries) (level frames : Nat)
    (c : Call) (hc : c ∈ (UserQueriesToQuery.loop P queries level frames).calls) :
    level ≤ c.level ∧ (c.fn.isCombinator = true → c.level ≤ 20) := by
  cases queries with
  | nil => simp [UserQueriesToQuery.loop] at hc
  | cons query rest =>
    rcases loop_calls_cons P query rest level frames c hc with h | h
    · exact UserQueryToQuery_levels P query level (frames + 1) c h
    · exact loop_levels P rest level frames c h
theorem OrQueryToQuery_levels (P : QueryPkg SQ) (q : OrQuery) (level frames : Nat)
    (hl : level ≤ 254) (c : Call) (hc : c ∈ (OrQueryToQuery P q level frames).calls) :
    level ≤ c.level ∧ (c.fn.isCombinator = true → c.level ≤ 20 ∨ c.level = level) := by
  have hm : (level + 1) % 256 = level + 1 := by omega
  cases q with
  | nilPtr =>
    simp only [OrQueryToQuery, List.mem_singleton] at hc
    subst hc
    exact ⟨le_refl _, fun _ => Or.inr rfl⟩
  | mk queries =>
    simp only [OrQueryToQuery, enter, thenConstruct_calls, hm, List.mem_cons] at hc
    rcases hc with rfl | rfl | hc
    · exact ⟨le_refl _, fun _ => Or.inr rfl⟩
    · exact ⟨by simp only; omega, fun hf => by simp [Fn.isCombinator] at hf⟩
    · have := loop_levels P queries (level + 1) (frames + 1) c hc
      exact ⟨by omega, fun hf => Or.inl (this.2 hf)⟩
theorem AndQueryToQuery_levels (P : QueryPkg SQ) (q : AndQuery) (level frames : Nat)
    (hl : level ≤ 254) (c : Call) (hc : c ∈ (AndQueryToQuery P q level frames).calls) :
    level ≤ c.level ∧ (c.fn.isCombinator = true → c.level ≤ 20 ∨ c.level = level) := by
  have hm : (level + 1) % 256 = level + 1 := by omega
  cases q with
  | nilPtr =>
    simp only [AndQueryToQuery, List.mem_singleton] at hc
    subst hc
    exact ⟨le_refl _, fun _ => Or.inr rfl⟩
  | mk queries =>
    simp only [AndQueryToQuery, enter, thenConstruct_calls, hm, List.mem_cons] at hc
    rcases hc with rfl | rfl | hc
    · exact ⟨le_refl _, fun _ => Or.inr rfl⟩
    · exact ⟨by simp only; omega, fun hf => by simp [Fn.isCombinator] at hf⟩
    · have := loop_levels P queries (level + 1) (frames + 1) c hc
      exact ⟨by omega, fun hf => Or.inl (this.2 hf)⟩
theorem NotQueryToQuery_levels (P : QueryPkg SQ) (q : NotQuery) (level frames : Nat)
    (hl : level ≤ 254) (c : Call) (hc : c ∈ (NotQueryToQuery P q level frames).calls) :
    level ≤ c.level ∧ (c.fn.isCombinator = true → c.level ≤ 20 ∨ c.level = level) := by
  have hm : (level + 1) % 256 = level + 1 := by omega
  cases q with
  | nilPtr =>
    simp only [NotQueryToQuery, List.mem_singleton] at hc
    subst hc
    exact ⟨le_refl _, fun _ => Or.inr rfl⟩
  | mk query =>
    rw [NotQueryToQuery_calls_mk, hm] at hc
    simp only [List.mem_cons] at hc
    rcases hc with rfl | hc
    · exact ⟨le_refl _, fun _ => Or.inr rfl⟩
    · have := UserQueryToQuery_levels P query (level + 1) (frames + 1) c hc
      exact ⟨by omega, fun hf => Or.inl (this.2 hf)⟩
end

/-! ## The bounded recursive query builder: nesting bound -/

/-- C1, as stated, fails: the tree `emptyIdsThenDeep` has all its nodes present and
nesting depth 22, yet `UserQueryToQuery(tree, 0)` returns the plain error of the
id-list constructor, converted before the deep child, which is no `InvalidArgument`
error. -/
theorem tooDeep_not_always_invalidArgument :
    20 < emptyIdsThenDeep.depth ∧ emptyIdsThenDeep.present = true ∧
      (Build samplePkg emptyIdsThenDeep).out = .ret (none, .sentinel "empty values") ∧
      (GoError.sentinel "empty values").kind? ≠ some .InvalidArgument := by
  refine ⟨by decide, by decide, by decide, by decide⟩

/-- C1, amended: for every tree without absent nodes whose nesting depth exceeds 20,
`UserQueryToQuery(tree, 0)` returns no predicate and a non-nil error, which is the
`InvalidArgument` error `USER-zsQ97`, or the `InvalidArgument` error `GRPC-vR9nC` of a
node of unknown kind, or the error returned by a constructor call that the build made
for a node of the tree; and for every query and every level above 20,
`UserQueryToQuery(query, level)` logs its own call only and returns the
`InvalidArgument` error `USER-zsQ97` "Errors.User.TooManyNestingLevels", whatever the
query is. -/
theorem tooDeep_fails (P : QueryPkg SQ) :
    (∀ tree : SearchQuery, tree.present = true → 20 < tree.depth →
      ∃ e, (Build P tree).out = .ret (none, e) ∧ e ≠ .nil ∧
        (e = .caos .InvalidArgument .nil "USER-zsQ97" "Errors.User.TooManyNestingLevels" ∨
          (e = .caos .InvalidArgument .nil "GRPC-vR9nC" "List.Query.Invalid" ∧
            tree.recognised = false) ∨
          tree.ctorError P 0 e)) ∧
    (∀ (query : SearchQuery) (level frames : Nat), 20 < level →
      UserQueryToQuery P query level frames =
        ⟨[⟨.UserQueryToQuery, level, frames⟩],
          .ret (none, .caos .InvalidArgument .nil "USER-zsQ97"
            "Errors.User.TooManyNestingLevels")⟩) := by
  constructor
  · intro tree hp hd
    rcases UserQueryToQuery_deep P tree 0 1 (by omega) (by omega) with h | ⟨e, hne, h⟩
    · exact absurd h (UserQueryToQuery_present P tree 0 1 hp)
    · refine ⟨e, h, hne, ?_⟩
      rcases UserQueryToQuery_origin P tree 0 1 none e h hne with ⟨h1, -⟩ | h1 | h1
      · exact Or.inl h1
      · exact Or.inr (Or.inl h1)
      · exact Or.inr (Or.inr h1)
  · intro query level frames hl
    unfold UserQueryToQuery
    simp only [hl, if_true]
    rfl

/-- Witness of C1 (amended): a leaf below 21 NOT nodes fails, and the nil query at
level 21 fails with `USER-zsQ97`. -/
theorem tooDeep_fails_witness :
    (∃ e, (Build samplePkg (notChain 21 leafA)).out = .ret (none, e) ∧ e ≠ .nil ∧
        (e = .caos .InvalidArgument .nil "USER-zsQ97" "Errors.User.TooManyNestingLevels" ∨
          (e = .caos .InvalidArgument .nil "GRPC-vR9nC" "List.Query.Invalid" ∧
            (notChain 21 leafA).recognised = false) ∨
          (notChain 21 leafA).ctorError samplePkg 0 e)) ∧
      UserQueryToQuery samplePkg .nilPtr 21 1 =
        ⟨[⟨.UserQueryToQuery, 21, 1⟩],
          .ret (none, .caos .InvalidArgument .nil "USER-zsQ97"
            "Errors.User.TooManyNestingLevels")⟩ :=
  ⟨(tooDeep_fails samplePkg).1 (notChain 21 leafA) (by decide) (by decide),
    (tooDeep_fails samplePkg).2 .nilPtr 21 1 (by decide)⟩

/-- C2, as stated, fails: every node of `andWithEmptyOr` is present and of a
recognised kind, its depth is 1 and its only leaf constructor succeeds, yet the build
fails, with the error of the OR constructor. -/
theorem recognised_leaves_ok_build_fails :
    andWithEmptyOr.depth ≤ 20 ∧ andWithEmptyOr.present = true ∧
      andWithEmptyOr.recognised = true ∧ andWithEmptyOr.leavesSucceed samplePkg = true ∧
      (Build samplePkg andWithEmptyOr).out = .ret (none, .sentinel "missing column") := by
  refine ⟨by decide, by decide, by decide, by decide, by decide⟩

/-- C2, amended: for every tree of nesting depth at most 20, the nesting check of the
build never fires (every `UserQueryToQuery` call is at a level of at most 20); any
non-nil error returned is the error `GRPC-vR9nC` of a node of unknown kind or the
error returned by a leaf or combinator constructor call that the build made for a
node of the tree; and if every node is present and of a recognised kind and every
leaf and combinator constructor call that the build makes returns a nil error, the
build succeeds. -/
theorem shallow_build (P : QueryPkg SQ) (tree : SearchQuery) (hd : tree.depth ≤ 20) :
    (∀ c ∈ (Build P tree).calls, c.fn = .UserQueryToQuery → c.level ≤ 20) ∧
    (∀ v e, (Build P tree).out = .ret (v, e) → e ≠ .nil →
      (e = .caos .InvalidArgument .nil "GRPC-vR9nC" "List.Query.Invalid" ∧
        tree.recognised = false) ∨
      tree.ctorError P 0 e) ∧
    (tree.present = true → tree.recognised = true →
      (∀ e, tree.ctorError P 0 e → e = .nil) →
      ∃ v, (Build P tree).out = .ret (v, .nil)) := by
  refine ⟨?_, ?_, ?_⟩
  · intro c hc hf
    have := (UserQueryToQuery_calls P tree 0 1 (by omega) c hc).2.2 hf
    omega
  · intro v e h hne
    rcases UserQueryToQuery_origin P tree 0 1 v e h hne with ⟨-, h1⟩ | h1 | h1
    · omega
    · exact Or.inl h1
    · exact Or.inr h1
  · intro hp hr hs
    cases h : (Build P tree).out with
    | panic => exact absurd h (UserQueryToQuery_present P tree 0 1 hp)
    | ret r =>
      obtain ⟨v, e⟩ := r
      by_cases hne : e = .nil
      · exact ⟨v, by rw [hne]⟩
      · rcases UserQueryToQuery_origin P tree 0 1 v e h hne with ⟨-, h1⟩ | ⟨-, h1⟩ | h1
        · omega
        · rw [hr] at h1
          exact absurd h1 (by decide)
        · exact absurd (hs e h1) hne

/-- Witness of C2 (amended): an OR node over one leaf is built without error by a
package whose OR constructor rejects the empty list. -/
theorem shallow_build_witness :
    orOfLeaf.depth ≤ 20 ∧ ∃ v, (Build samplePkg orOfLeaf).out = .ret (v, .nil) :=
  ⟨by decide,
    (shallow_build samplePkg orOfLeaf (by decide)).2.2 (by decide) (by decide)
      (by
        intro e h
        simp only [orOfLeaf, leafA, SearchQuery.ctorError, OrQuery.ctorError,
          SearchQueries.ctorError, UserNameQueryToQuery, leaf, UserQueriesToQuery.loop,
          UserQueryToQuery, samplePkg] at h
        simp at h
        exact h.symm)⟩

/-- C3, as stated, fails: the build of a leaf below 21 nested OR nodes calls
`UserQueriesToQuery` and then `UserQueryToQuery` with the level argument 21, the
latter as builder frame 64; the bound is checked on entry of the callee, after the
call is made. -/
theorem level_21_is_called :
    (⟨.UserQueriesToQuery, 21, 63⟩ : Call) ∈ (Build totalPkg (orChain 21 leafA)).calls ∧
      (⟨.UserQueryToQuery, 21, 64⟩ : Call) ∈ (Build totalPkg (orChain 21 leafA)).calls ∧
      ¬ (21 ≤ 20) := by
  refine ⟨by decide, by decide, by decide⟩

/-- C3, amended: for every tree, the build started with `UserQueryToQuery(tree, 0)`
ends, returning or panicking, and every call it makes to a builder function has a
level argument of at most 21 and at most 64 builder frames on the stack; a
`UserQueryToQuery` call at level 21 makes no further call. -/
theorem build_bounded (P : QueryPkg SQ) (tree : SearchQuery) :
    ((Build P tree).out = .panic ∨ ∃ v e, (Build P tree).out = .ret (v, e)) ∧
    (∀ c ∈ (Build P tree).calls, c.level ≤ 21 ∧ c.frames ≤ 64) ∧
    (∀ (query : SearchQuery) (frames : Nat),
      (UserQueryToQuery P query 21 frames).calls = [⟨.UserQueryToQuery, 21, frames⟩]) := by
  refine ⟨?_, ?_, ?_⟩
  · cases h : (Build P tree).out with
    | panic => exact Or.inl rfl
    | ret r => exact Or.inr ⟨r.1, r.2, rfl⟩
  · intro c hc
    have := UserQueryToQuery_calls P tree 0 1 (by omega) c hc
    exact ⟨this.1, by have := this.2.1; omega⟩
  · intro query frames
    unfold UserQueryToQuery
    simp

/-- Witness of C3 (amended): the call at level 21 made for a leaf below 21 NOT nodes. -/
theorem build_bounded_witness :
    (⟨.UserQueryToQuery, 21, 43⟩ : Call) ∈ (Build totalPkg (notChain 21 leafA)).calls ∧
      (⟨.UserQueryToQuery, 21, 43⟩ : Call).level ≤ 21 ∧
      (⟨.UserQueryToQuery, 21, 43⟩ : Call).frames ≤ 64 :=
  ⟨by decide, (build_bounded totalPkg (notChain 21 leafA)).2.1 _ (by decide)⟩

/-- C4: for every level of at most 20 and every query of none of the fourteen
recognised kinds (no kind set, or a kind without a case), `UserQueryToQuery` returns
no predicate and the `InvalidArgument` error `GRPC-vR9nC` "List.Query.Invalid",
without calling anything else. -/
theorem unrecognised_kind_invalid (P : QueryPkg SQ) (query : SearchQuery)
    (level frames : Nat) (hl : level ≤ 20) (hq : query.unrecognisedKind = true) :
    UserQueryToQuery P query level frames =
      ⟨[⟨.UserQueryToQuery, level, frames⟩],
        .ret (none, .caos .InvalidArgument .nil "GRPC-vR9nC" "List.Query.Invalid")⟩ := by
  have h20 : ¬ 20 < level := by omega
  unfold UserQueryToQuery
  simp only [h20, if_false]
  cases query <;> first
    | rfl
    | (simp [SearchQuery.unrecognisedKind] at hq)

/-- Witness of C4: a query with no kind set, at level 20. -/
theorem unrecognised_kind_invalid_witness :
    UserQueryToQuery totalPkg .unset 20 1 =
      ⟨[⟨.UserQueryToQuery, 20, 1⟩],
        .ret (none, .caos .InvalidArgument .nil "GRPC-vR9nC" "List.Query.Invalid")⟩ :=
  unrecognised_kind_invalid totalPkg .unset 20 1 (by decide) (by decide)

/-! ## The client-credentials authenticator -/

/-- C5: when the search query is built and the user lookup fails with a NotFound
error, `clientCredentialsAuth` returns no client and the OIDC error `invalid_client`
"client not found" whose parent is that error (a different error value), with no
effect at all; when the lookup fails with any other error, that error is returned
unchanged, again with no effect, so no secret-check event is dispatched. -/
theorem lookup_failure (s : Server SQ) (clientID clientSecret : String)
    (searchQuery : Option SQ) (user : Option User) (err : GoError)
    (hq : s.NewUserLoginNamesSearchQuery clientID = (searchQuery, .nil))
    (hu : s.GetUser searchQuery = (user, err)) :
    (IsNotFound err = true →
      clientCredentialsAuth s clientID clientSecret =
          ⟨[], .ret (none, .oidc "invalid_client" err "client not found")⟩ ∧
        GoError.oidc "invalid_client" err "client not found" ≠ err ∧
        (GoError.oidc "invalid_client" err "client not found").Unwrap = err) ∧
    (IsNotFound err = false → err ≠ .nil →
      clientCredentialsAuth s clientID clientSecret = ⟨[], .ret (none, err)⟩) ∧
    (err ≠ .nil → dispatched (clientCredentialsAuth s clientID clientSecret).effects = []) := by
  refine ⟨?_, ?_, ?_⟩
  · intro hnf
    refine ⟨?_, ?_, rfl⟩
    · simp [clientCredentialsAuth, hq, hu, hnf, ErrInvalidClient, GoError.WithParent,
        GoError.WithDescription]
    · intro h
      rw [← h] at hnf
      simp [IsNotFound] at hnf
  · intro hnf hne
    simp [clientCredentialsAuth, hq, hu, hnf, hne]
  · intro hne
    cases hnf : IsNotFound err <;>
      simp [clientCredentialsAuth, hq, hu, hnf, hne, dispatched]

/-- Witness of C5: a lookup failing with a NotFound error and one failing with an
internal error. -/
theorem lookup_failure_witness :
    clientCredentialsAuth
        (sampleServer (none, ThrowNotFound .nil "QUERY-Dfbg2" "Errors.User.NotFound"))
        "client" "right" =
      ⟨[], .ret (none, .oidc "invalid_client"
        (ThrowNotFound .nil "QUERY-Dfbg2" "Errors.User.NotFound") "client not found")⟩ ∧
    clientCredentialsAuth
        (sampleServer (none, ThrowInternal .nil "QUERY-Xw1p9" "Errors.Internal"))
        "client" "right" =
      ⟨[], .ret (none, ThrowInternal .nil "QUERY-Xw1p9" "Errors.Internal")⟩ :=
  ⟨((lookup_failure
      (sampleServer (none, ThrowNotFound .nil "QUERY-Dfbg2" "Errors.User.NotFound"))
      "client" "right" (some "client") none _ rfl rfl).1 (by decide)).1,
    (lookup_failure
      (sampleServer (none, ThrowInternal .nil "QUERY-Xw1p9" "Errors.Internal"))
      "client" "right" (some "client") none _ rfl rfl).2.1 (by decide) (by decide)⟩

/-- C6: for every found user without a machine sub-record, or whose machine
sub-record has no stored secret, `clientCredentialsAuth` returns no client and the
PreconditionFailed error `OIDC-pieP8`, with no effect at all: the supplied secret is
not compared and no secret-check event is dispatched. -/
theorem missing_secret (s : Server SQ) (clientID clientSecret : String)
    (searchQuery : Option SQ) (user : User)
    (hq : s.NewUserLoginNamesSearchQuery clientID = (searchQuery, .nil))
    (hu : s.GetUser searchQuery = (some user, .nil))
    (hm : user.Machine = none ∨ ∃ m, user.Machine = some m ∧ m.Secret = none) :
    clientCredentialsAuth s clientID clientSecret =
        ⟨[], .ret (none, .caos .PreconditionFailed .nil "OIDC-pieP8"
          "Errors.User.Machine.Secret.NotExisting")⟩ ∧
      compared (clientCredentialsAuth s clientID clientSecret).effects = [] ∧
      dispatched (clientCredentialsAuth s clientID clientSecret).effects = [] := by
  have h : clientCredentialsAuth s clientID clientSecret =
      ⟨[], .ret (none, .caos .PreconditionFailed .nil "OIDC-pieP8"
        "Errors.User.Machine.Secret.NotExisting")⟩ := by
    rcases hm with hm | ⟨m, hm, hs⟩
    · simp [clientCredentialsAuth, hq, hu, hm, IsNotFound, ThrowPreconditionFailed]
    · simp [clientCredentialsAuth, hq, hu, hm, hs, IsNotFound, ThrowPreconditionFailed]
  rw [h]
  exact ⟨rfl, rfl, rfl⟩

/-- Witness of C6: a user without a machine sub-record. -/
theorem missing_secret_witness :
    clientCredentialsAuth (sampleServer (some ⟨"user-1", "org-1", none⟩, .nil))
        "client" "right" =
        ⟨[], .ret (none, .caos .PreconditionFailed .nil "OIDC-pieP8"
          "Errors.User.Machine.Secret.NotExisting")⟩ ∧
      compared (clientCredentialsAuth (sampleServer (some ⟨"user-1", "org-1", none⟩, .nil))
        "client" "right").effects = [] ∧
      dispatched (clientCredentialsAuth (sampleServer (some ⟨"user-1", "org-1", none⟩, .nil))
        "client" "right").effects = [] :=
  missing_secret (sampleServer (some ⟨"user-1", "org-1", none⟩, .nil)) "client" "right"
    (some "client") ⟨"user-1", "org-1", none⟩ rfl rfl (Or.inl rfl)

/-- C7: for every found machine user with a stored secret and every supplied secret
for which the hash comparison returns an error, `clientCredentialsAuth` compares
once, dispatches exactly one event, `MachineSecretCheckFailed` for the user's ID and
resource owner, and returns no client and the InvalidArgument error `OIDC-VoXo6`
whose parent is the comparison error. -/
theorem wrong_secret (s : Server SQ) (clientID clientSecret : String)
    (searchQuery : Option SQ) (user : User) (machine : Machine) (secret : CryptoValue)
    (hq : s.NewUserLoginNamesSearchQuery clientID = (searchQuery, .nil))
    (hu : s.GetUser searchQuery = (some user, .nil))
    (hm : user.Machine = some machine) (hs : machine.Secret = some secret)
    (hc : s.CompareHash secret clientSecret ≠ .nil) :
    clientCredentialsAuth s clientID clientSecret =
        ⟨[.CompareHash secret clientSecret,
          .MachineSecretCheckFailed user.ID user.ResourceOwner],
          .ret (none, .caos .InvalidArgument (s.CompareHash secret clientSecret)
            "OIDC-VoXo6" "Errors.User.Machine.Secret.Invalid")⟩ ∧
      dispatched (clientCredentialsAuth s clientID clientSecret).effects =
        [.MachineSecretCheckFailed user.ID user.ResourceOwner] := by
  have h : clientCredentialsAuth s clientID clientSecret =
      ⟨[.CompareHash secret clientSecret,
        .MachineSecretCheckFailed user.ID user.ResourceOwner],
        .ret (none, .caos .InvalidArgument (s.CompareHash secret clientSecret)
          "OIDC-VoXo6" "Errors.User.Machine.Secret.Invalid")⟩ := by
    simp [clientCredentialsAuth, hq, hu, hm, hs, hc, IsNotFound, ThrowInvalidArgument]
  rw [h]
  exact ⟨rfl, rfl⟩

/-- Witness of C7: the sample machine user with the secret `"wrong"`. -/
theorem wrong_secret_witness :
    clientCredentialsAuth (sampleServer (some (machineUser 0), .nil)) "client" "wrong" =
        ⟨[.CompareHash ⟨"bcrypt", "", [1, 2, 3]⟩ "wrong",
          .MachineSecretCheckFailed "user-1" "org-1"],
          .ret (none, .caos .InvalidArgument (.sentinel "crypto: hash mismatch")
            "OIDC-VoXo6" "Errors.User.Machine.Secret.Invalid")⟩ ∧
      dispatched (clientCredentialsAuth (sampleServer (some (machineUser 0), .nil))
        "client" "wrong").effects = [.MachineSecretCheckFailed "user-1" "org-1"] :=
  wrong_secret (sampleServer (some (machineUser 0), .nil)) "client" "wrong"
    (some "client") (machineUser 0) ⟨some ⟨"bcrypt", "", [1, 2, 3]⟩, 0⟩
    ⟨"bcrypt", "", [1, 2, 3]⟩ rfl rfl rfl rfl (by decide)

/-- C8: for every found machine user whose stored hash matches the supplied secret,
`clientCredentialsAuth` compares once, dispatches exactly one event,
`MachineSecretCheckSucceeded`, and returns a nil error and a client whose `GetID()` is
the supplied client ID, whose `GrantTypes()` is the one-element list
`[client_credentials]` and whose `RestrictAdditionalAccessTokenScopes()` returns every
scope list unchanged. -/
theorem right_secret (s : Server SQ) (clientID clientSecret : String)
    (searchQuery : Option SQ) (user : User) (machine : Machine) (secret : CryptoValue)
    (hq : s.NewUserLoginNamesSearchQuery clientID = (searchQuery, .nil))
    (hu : s.GetUser searchQuery = (some user, .nil))
    (hm : user.Machine = some machine) (hs : machine.Secret = some secret)
    (hc : s.CompareHash secret clientSecret = .nil) :
    ∃ client : clientCredentialsClient,
      clientCredentialsAuth s clientID clientSecret =
        ⟨[.CompareHash secret clientSecret,
          .MachineSecretCheckSucceeded user.ID user.ResourceOwner],
          .ret (some client, .nil)⟩ ∧
      dispatched (clientCredentialsAuth s clientID clientSecret).effects =
        [.MachineSecretCheckSucceeded user.ID user.ResourceOwner] ∧
      client.GetID = clientID ∧
      client.GrantTypes = ["client_credentials"] ∧
      ∀ scopes, client.RestrictAdditionalAccessTokenScopes scopes = scopes := by
  have h : clientCredentialsAuth s clientID clientSecret =
      ⟨[.CompareHash secret clientSecret,
        .MachineSecretCheckSucceeded user.ID user.ResourceOwner],
        .ret (some ⟨clientID, some user⟩, .nil)⟩ := by
    simp [clientCredentialsAuth, hq, hu, hm, hs, hc, IsNotFound]
  refine ⟨⟨clientID, some user⟩, h, ?_, rfl, rfl, fun _ => rfl⟩
  rw [h]
  rfl

/-- Witness of C8: the sample machine user with the secret `"right"`. -/
theorem right_secret_witness :
    ∃ client : clientCredentialsClient,
      clientCredentialsAuth (sampleServer (some (machineUser 0), .nil)) "client" "right" =
        ⟨[.CompareHash ⟨"bcrypt", "", [1, 2, 3]⟩ "right",
          .MachineSecretCheckSucceeded "user-1" "org-1"],
          .ret (some client, .nil)⟩ ∧
      dispatched (clientCredentialsAuth (sampleServer (some (machineUser 0), .nil))
        "client" "right").effects = [.MachineSecretCheckSucceeded "user-1" "org-1"] ∧
      client.GetID = "client" ∧
      client.GrantTypes = ["client_credentials"] ∧
      ∀ scopes, client.RestrictAdditionalAccessTokenScopes scopes = scopes :=
  right_secret (sampleServer (some (machineUser 0), .nil)) "client" "right"
    (some "client") (machineUser 0) ⟨some ⟨"bcrypt", "", [1, 2, 3]⟩, 0⟩
    ⟨"bcrypt", "", [1, 2, 3]⟩ rfl rfl rfl rfl (by decide)

/-- C9 fails on the code: for a machine user whose stored access-token type is
`domain.OIDCTokenTypeJWT`, a successful authentication returns a client whose
`AccessTokenType()` is `accessTokenTypeToOIDC` applied to the stored JWT type, not a
constant; whenever that conversion maps the JWT type to `op.AccessTokenTypeJWT`, the
result is `op.AccessTokenTypeJWT` and not the bearer type. -/
theorem stored_jwt_type_is_converted (s : Server SQ) (clientID clientSecret : String)
    (searchQuery : Option SQ) (user : User) (machine : Machine) (secret : CryptoValue)
    (hq : s.NewUserLoginNamesSearchQuery clientID = (searchQuery, .nil))
    (hu : s.GetUser searchQuery = (some user, .nil))
    (hm : user.Machine = some machine) (hs : machine.Secret = some secret)
    (hc : s.CompareHash secret clientSecret = .nil)
    (ht : machine.AccessTokenType = OIDCTokenTypeJWT) :
    ∃ client : clientCredentialsClient,
      (clientCredentialsAuth s clientID clientSecret).out = .ret (some client, .nil) ∧
      client.AccessTokenType s = .ret (s.accessTokenTypeToOIDC OIDCTokenTypeJWT) ∧
      (s.accessTokenTypeToOIDC OIDCTokenTypeJWT = AccessTokenTypeJWT →
        client.AccessTokenType s = .ret AccessTokenTypeJWT ∧
        client.AccessTokenType s ≠ .ret AccessTokenTypeBearer) := by
  have h : (clientCredentialsAuth s clientID clientSecret).out =
      .ret (some ⟨clientID, some user⟩, .nil) := by
    simp [clientCredentialsAuth, hq, hu, hm, hs, hc, IsNotFound]
  have ha : clientCredentialsClient.AccessTokenType s ⟨clientID, some user⟩ =
      .ret (s.accessTokenTypeToOIDC OIDCTokenTypeJWT) := by
    simp [clientCredentialsClient.AccessTokenType, hm, ht]
  refine ⟨⟨clientID, some user⟩, h, ha, ?_⟩
  intro hconv
  rw [ha, hconv]
  exact ⟨rfl, by decide⟩

/-- Witness of C9: the sample machine user with a stored JWT type, authenticated by a
server whose conversion keeps the number of the token type. -/
theorem stored_jwt_type_is_converted_witness :
    ∃ client : clientCredentialsClient,
      (clientCredentialsAuth
        (sampleServerWith (fun tokenType => tokenType)
          (some (machineUser OIDCTokenTypeJWT), .nil)) "client" "right").out =
        .ret (some client, .nil) ∧
      client.AccessTokenType
          (sampleServerWith (fun tokenType => tokenType)
            (some (machineUser OIDCTokenTypeJWT), .nil)) = .ret AccessTokenTypeJWT ∧
      client.AccessTokenType
          (sampleServerWith (fun tokenType => tokenType)
            (some (machineUser OIDCTokenTypeJWT), .nil)) ≠ .ret AccessTokenTypeBearer := by
  obtain ⟨client, h1, -, h3⟩ :=
    stored_jwt_type_is_converted
      (sampleServerWith (fun tokenType => tokenType)
        (some (machineUser OIDCTokenTypeJWT), .nil))
      "client" "right" (some "client") (machineUser OIDCTokenTypeJWT)
      ⟨some ⟨"bcrypt", "", [1, 2, 3]⟩, OIDCTokenTypeJWT⟩ ⟨"bcrypt", "", [1, 2, 3]⟩
      rfl rfl rfl rfl (by decide) rfl
  exact ⟨client, h1, h3 (by decide)⟩

/-! ## The OIDC client lookup -/

/-- C10: `GetOIDCClientByID` returns the NotFound error `QUERY-wu6Ee` exactly when the
error of the JSON-object query is `sql.ErrNoRows` (in the sense of `errors.Is`); for
every other non-nil error of the query it returns the Internal error `QUERY-ieR7R`
whose parent is that error; a failing lookup returns no client; and when the query
returns a nil error, its client is returned with a nil error. -/
theorem getOIDCClientByID_result (q : Queries) (instanceID clientID : String)
    (getKeys : Bool) (client : Option OIDCClient) (err : GoError)
    (hr : q.QueryJSONObject instanceID clientID getKeys = (client, err)) :
    (errorsIs err ErrNoRows = true →
      GetOIDCClientByID q instanceID clientID getKeys =
        (none, .caos .NotFound err "QUERY-wu6Ee" "Errors.App.NotFound")) ∧
    (errorsIs err ErrNoRows = false → err ≠ .nil →
      GetOIDCClientByID q instanceID clientID getKeys =
          (none, .caos .Internal err "QUERY-ieR7R" "Errors.Internal") ∧
        (GoError.caos .Internal err "QUERY-ieR7R" "Errors.Internal").Unwrap = err) ∧
    (err = .nil → GetOIDCClientByID q instanceID clientID getKeys = (client, .nil)) ∧
    ((GetOIDCClientByID q instanceID clientID getKeys).2.kind? = some .NotFound ↔
      errorsIs err ErrNoRows = true) ∧
    ((GetOIDCClientByID q instanceID clientID getKeys).2 ≠ .nil →
      (GetOIDCClientByID q instanceID clientID getKeys).1 = none) := by
  unfold GetOIDCClientByID
  rw [hr]
  by_cases h1 : errorsIs err ErrNoRows = true
  · have hne : err ≠ .nil := by
      intro h
      rw [h] at h1
      simp [errorsIs, ErrNoRows] at h1
    simp [h1, hne, ThrowNotFound, GoError.kind?]
  · by_cases h2 : err = .nil
    · subst h2
      simp [errorsIs, ErrNoRows, GoError.kind?]
    · simp [h1, h2, ThrowInternal, GoError.kind?, GoError.Unwrap]

/-- Witness of C10: the outcomes of the JSON-object query that its test expects for
zero rows and for a failed transaction begin. -/
theorem getOIDCClientByID_result_witness :
    GetOIDCClientByID (sampleQueries (none, ErrNoRows)) "instance" "client" false =
        (none, .caos .NotFound ErrNoRows "QUERY-wu6Ee" "Errors.App.NotFound") ∧
      GetOIDCClientByID
          (sampleQueries (none, ThrowInternal ErrConnDone "DATAB-Oath6" "Errors.Internal"))
          "instance" "client" false =
        (none, .caos .Internal (ThrowInternal ErrConnDone "DATAB-Oath6" "Errors.Internal")
          "QUERY-ieR7R" "Errors.Internal") :=
  ⟨(getOIDCClientByID_result (sampleQueries (none, ErrNoRows)) "instance" "client" false
      none ErrNoRows rfl).1 (by decide),
    ((getOIDCClientByID_result
      (sampleQueries (none, ThrowInternal ErrConnDone "DATAB-Oath6" "Errors.Internal"))
      "instance" "client" false none _ rfl).2.1 (by decide) (by decide)).1⟩

/-! ## The command side: append, reduce and the existence check -/

/-- C11: `pushAppendAndReduce` leaves the object alone when the push fails, calling no
method on it and returning the push error unchanged; when the push succeeds it calls
`AppendEvents` once, with exactly the events the push returned, in their order, then
`Reduce` once, and returns the error of `Reduce`. -/
theorem pushAppendAndReduce_atomic {σ Cmd Ev : Type} (c : Commands Cmd Ev)
    (I : AppendReducer σ Ev) (object : σ) (cmds : List Cmd) (events : List Ev)
    (err : GoError) (hp : c.Push cmds = (events, err)) :
    (err ≠ .nil → c.pushAppendAndReduce I object cmds = ⟨object, [], err⟩) ∧
    (err = .nil →
      c.pushAppendAndReduce I object cmds =
        ⟨(I.Reduce (I.AppendEvents object events)).1,
          [.AppendEvents events, .Reduce],
          (I.Reduce (I.AppendEvents object events)).2⟩) := by
  constructor
  · intro hne
    simp [Commands.pushAppendAndReduce, hp, hne]
  · intro he
    simp [Commands.pushAppendAndReduce, hp, he, AppendAndReduce]

/-- Witness of C11: a failed push leaves the sample model as it was, and a push of two
commands appends and reduces the two returned events. -/
theorem pushAppendAndReduce_atomic_witness :
    sampleCommands.pushAppendAndReduce sampleWriteModel.toAppendReducer ⟨[], [7]⟩ [] =
        ⟨⟨[], [7]⟩, [], ThrowInternal .nil "V3-Sd2fg" "Errors.Internal"⟩ ∧
      sampleCommands.pushAppendAndReduce sampleWriteModel.toAppendReducer ⟨[], [7]⟩ [3, 4] =
        ⟨⟨[], [7, 3, 4]⟩, [.AppendEvents [3, 4], .Reduce], .nil⟩ :=
  ⟨(pushAppendAndReduce_atomic sampleCommands sampleWriteModel.toAppendReducer ⟨[], [7]⟩ []
      [] _ rfl).1 (by decide),
    (pushAppendAndReduce_atomic sampleCommands sampleWriteModel.toAppendReducer ⟨[], [7]⟩
      [3, 4] [3, 4] .nil rfl).2 rfl⟩

/-- C13: `exists(ctx, filter, wm)` returns `(false, err)` when the filter fails with
`err`, without touching the model, and when `Reduce` fails with `err`; when the filter
returns no event, neither `AppendEvents` nor `Reduce` is called, the model is unchanged
and the result is its `Exists()` value; otherwise the events of the filter for
`wm.Query()` are appended in one call, in the order returned, reduced once, and the
result is `Exists()` of the reduced model with a nil error. -/
theorem existsCheck_result {σ Q Ev : Type} (filter : Q → List Ev × GoError)
    (W : existsWriteModel σ Q Ev) (wm : σ) (events : List Ev) (err : GoError)
    (hf : filter (W.Query wm) = (events, err)) :
    (err ≠ .nil → existsCheck filter W wm = ⟨wm, [.Query], (false, err)⟩) ∧
    (err = .nil → events = [] →
      existsCheck filter W wm = ⟨wm, [.Query, .Exists], (W.Exists wm, .nil)⟩) ∧
    (err = .nil → events ≠ [] → (W.Reduce (W.AppendEvents wm events)).2 ≠ .nil →
      existsCheck filter W wm =
        ⟨(W.Reduce (W.AppendEvents wm events)).1,
          [.Query, .AppendEvents events, .Reduce],
          (false, (W.Reduce (W.AppendEvents wm events)).2)⟩) ∧
    (err = .nil → events ≠ [] → (W.Reduce (W.AppendEvents wm events)).2 = .nil →
      existsCheck filter W wm =
        ⟨(W.Reduce (W.AppendEvents wm events)).1,
          [.Query, .AppendEvents events, .Reduce, .Exists],
          (W.Exists (W.Reduce (W.AppendEvents wm events)).1, .nil)⟩) := by
  refine ⟨?_, ?_, ?_, ?_⟩
  · intro hne
    simp [existsCheck, queryAndReduce, hf, hne]
  · intro he hev
    simp [existsCheck, queryAndReduce, hf, he, hev]
  · intro he hev hr
    have hl : events.length ≠ 0 := fun h => hev (List.length_eq_zero.mp h)
    simp [existsCheck, queryAndReduce, hf, he, hl, hr]
  · intro he hev hr
    have hl : events.length ≠ 0 := fun h => hev (List.length_eq_zero.mp h)
    simp [existsCheck, queryAndReduce, hf, he, hl, hr]

/-- Witness of C13: on the empty sample model, a failing filter, a filter without
events, a filter whose events cannot be reduced and a filter with two events. -/
theorem existsCheck_result_witness :
    existsCheck (fun _ => ([1], ErrConnDone)) sampleWriteModel ⟨[], []⟩ =
        ⟨⟨[], []⟩, [.Query], (false, ErrConnDone)⟩ ∧
      existsCheck (fun _ => ([], .nil)) sampleWriteModel ⟨[], []⟩ =
        ⟨⟨[], []⟩, [.Query, .Exists], (false, .nil)⟩ ∧
      existsCheck (fun _ => ([0], .nil)) sampleWriteModel ⟨[], []⟩ =
        ⟨⟨[0], []⟩, [.Query, .AppendEvents [0], .Reduce],
          (false, .sentinel "unknown event")⟩ ∧
      existsCheck (fun _ => ([1, 2], .nil)) sampleWriteModel ⟨[], []⟩ =
        ⟨⟨[], [1, 2]⟩, [.Query, .AppendEvents [1, 2], .Reduce, .Exists], (true, .nil)⟩ :=
  ⟨(existsCheck_result (fun _ => ([1], ErrConnDone)) sampleWriteModel ⟨[], []⟩ [1]
      ErrConnDone rfl).1 (by decide),
    (existsCheck_result (fun _ => ([], .nil)) sampleWriteModel ⟨[], []⟩ [] .nil
      rfl).2.1 rfl rfl,
    (existsCheck_result (fun _ => ([0], .nil)) sampleWriteModel ⟨[], []⟩ [0] .nil
      rfl).2.2.1 rfl (by decide) (by decide),
    (existsCheck_result (fun _ => ([1, 2], .nil)) sampleWriteModel ⟨[], []⟩ [1, 2] .nil
      rfl).2.2.2 rfl (by decide) (by decide)⟩

/-! ## The bounded recursive query builder: malformed input and the level counter -/

/-- C14 fails on the code: at level 0 the builder panics on a nil dereference for a NOT
node whose inner query is absent, for a nil query, for a list with a nil element, for
a leaf wrapper and for a combinator wrapper whose payload message is absent. -/
theorem nil_dereference_panics :
    (Build totalPkg (.NotQuery (.mk .nilPtr))).out = .panic ∧
      (UserQueryToQuery totalPkg .nilPtr 0 1).out = .panic ∧
      (UserQueriesToQuery totalPkg (.cons leafA (.cons .nilPtr .nil)) 0 1).out = .panic ∧
      (UserQueryToQuery totalPkg (.UserNameQuery none) 0 1).out = .panic ∧
      (UserQueryToQuery totalPkg (.OrQuery .nilPtr) 0 1).out = .panic := by
  refine ⟨by decide, by decide, by decide, by decide, by decide⟩

/-- C15, as stated, fails: entered at level 255, each combinator converter increments
the level to 0, converts its child at level 0 and returns a predicate with a nil
error. -/
theorem level_255_wraps :
    (OrQueryToQuery totalPkg (.mk (.cons leafA .nil)) 255 1).out = .ret (some "or", .nil) ∧
      (⟨.UserQueryToQuery, 0, 3⟩ : Call) ∈
        (OrQueryToQuery totalPkg (.mk (.cons leafA .nil)) 255 1).calls ∧
      (AndQueryToQuery totalPkg (.mk (.cons leafA .nil)) 255 1).out =
        .ret (some "and", .nil) ∧
      (⟨.UserQueryToQuery, 0, 3⟩ : Call) ∈
        (AndQueryToQuery totalPkg (.mk (.cons leafA .nil)) 255 1).calls ∧
      (NotQueryToQuery totalPkg (.mk leafA) 255 1).out = .ret (some "not", .nil) ∧
      (⟨.UserQueryToQuery, 0, 2⟩ : Call) ∈
        (NotQueryToQuery totalPkg (.mk leafA) 255 1).calls := by
  refine ⟨by decide, by decide, by decide, by decide, by decide, by decide⟩

/-- Away from level 255 the counter does not wrap: a combinator converter entered at a
level from 20 to 254 with at least one child returns no predicate and the nesting
error, whatever the children are. -/
theorem combinator_from_20_to_254_fails (P : QueryPkg SQ) (query : SearchQuery)
    (rest : SearchQueries) (level frames : Nat) (h20 : 20 ≤ level) (h254 : level ≤ 254) :
    (OrQueryToQuery P (.mk (.cons query rest)) level frames).out =
        .ret (none, errTooManyNestingLevels) ∧
      (AndQueryToQuery P (.mk (.cons query rest)) level frames).out =
        .ret (none, errTooManyNestingLevels) ∧
      (NotQueryToQuery P (.mk query) level frames).out =
        .ret (none, errTooManyNestingLevels) := by
  have hm : (level + 1) % 256 = level + 1 := by omega
  have hl : 20 < level + 1 := by omega
  have hq : ∀ f, (UserQueryToQuery P query (level + 1) f).out =
      .ret (none, errTooManyNestingLevels) := by
    intro f
    unfold UserQueryToQuery
    simp [hl]
  have hloop : (UserQueriesToQuery.loop P (.cons query rest) (level + 1) (frames + 1)).out =
      .ret (none, errTooManyNestingLevels) := by
    unfold UserQueriesToQuery.loop
    simp [hq, errTooManyNestingLevels_ne_nil]
  refine ⟨?_, ?_, ?_⟩
  · simp [OrQueryToQuery, enter, thenConstruct, hm, hloop, errTooManyNestingLevels_ne_nil]
  · simp [AndQueryToQuery, enter, thenConstruct, hm, hloop, errTooManyNestingLevels_ne_nil]
  · simp [NotQueryToQuery, hm, hq, errTooManyNestingLevels_ne_nil]

/-- C15, amended: in a run entered through `UserQueryToQuery` or `UserQueriesToQuery`
at any starting level, no call is at a smaller level than the starting one and every
combinator converter runs at a level of at most 20, so its increment does not wrap;
a combinator converter entered directly at any level of at most 254 makes no call at
a smaller level than its own; and entered at a level from 20 to 254 with at least one
child, it returns no predicate and the error `USER-zsQ97`. -/
theorem levels_do_not_wrap (P : QueryPkg SQ) :
    (∀ (query : SearchQuery) (level frames : Nat),
      ∀ c ∈ (UserQueryToQuery P query level frames).calls,
        level ≤ c.level ∧ (c.fn.isCombinator = true → c.level ≤ 20)) ∧
    (∀ (queries : SearchQueries) (level frames : Nat),
      ∀ c ∈ (UserQueriesToQuery P queries level frames).calls,
        level ≤ c.level ∧ (c.fn.isCombinator = true → c.level ≤ 20)) ∧
    (∀ (level frames : Nat), level ≤ 254 →
      (∀ q, ∀ c ∈ (OrQueryToQuery P q level frames).calls, level ≤ c.level) ∧
      (∀ q, ∀ c ∈ (AndQueryToQuery P q level frames).calls, level ≤ c.level) ∧
      (∀ q, ∀ c ∈ (NotQueryToQuery P q level frames).calls, level ≤ c.level)) ∧
    (∀ (query : SearchQuery) (rest : SearchQueries) (level frames : Nat),
      20 ≤ level → level ≤ 254 →
      (OrQueryToQuery P (.mk (.cons query rest)) level frames).out =
          .ret (none, .caos .InvalidArgument .nil "USER-zsQ97"
            "Errors.User.TooManyNestingLevels") ∧
        (AndQueryToQuery P (.mk (.cons query rest)) level frames).out =
          .ret (none, .caos .InvalidArgument .nil "USER-zsQ97"
            "Errors.User.TooManyNestingLevels") ∧
        (NotQueryToQuery P (.mk query) level frames).out =
          .ret (none, .caos .InvalidArgument .nil "USER-zsQ97"
            "Errors.User.TooManyNestingLevels")) := by
  refine ⟨?_, ?_, ?_, ?_⟩
  · intro query level frames c hc
    exact UserQueryToQuery_levels P query level frames c hc
  · intro queries level frames c hc
    simp only [UserQueriesToQuery, enter, List.mem_cons] at hc
    rcases hc with rfl | hc
    · exact ⟨le_refl _, fun hf => by simp [Fn.isCombinator] at hf⟩
    · exact loop_levels P queries level frames c hc
  · intro level frames hl
    exact ⟨fun q c hc => (OrQueryToQuery_levels P q level frames hl c hc).1,
      fun q c hc => (AndQueryToQuery_levels P q level frames hl c hc).1,
      fun q c hc => (NotQueryToQuery_levels P q level frames hl c hc).1⟩
  · intro query rest level frames h20 h254
    exact combinator_from_20_to_254_fails P query rest level frames h20 h254

/-- Witness of C15 (amended): an OR node over one leaf, converted at level 20 inside a
build and entered directly at level 254. -/
theorem levels_do_not_wrap_witness :
    (⟨.OrQueryToQuery, 20, 42⟩ : Call) ∈ (Build samplePkg (notChain 20 orOfLeaf)).calls ∧
      (0 ≤ (⟨.OrQueryToQuery, 20, 42⟩ : Call).level ∧
        ((⟨.OrQueryToQuery, 20, 42⟩ : Call).fn.isCombinator = true →
          (⟨.OrQueryToQuery, 20, 42⟩ : Call).level ≤ 20)) ∧
      (OrQueryToQuery samplePkg (.mk (.cons leafA .nil)) 254 1).out =
        .ret (none, .caos .InvalidArgument .nil "USER-zsQ97"
          "Errors.User.TooManyNestingLevels") :=
  ⟨by decide,
    (levels_do_not_wrap samplePkg).1 (notChain 20 orOfLeaf) 0 1 _ (by decide),
    ((levels_do_not_wrap samplePkg).2.2.2 leafA .nil 254 1 (by decide) (by decide)).1⟩

end Zitadel
